import Mathlib

/-!
Verification of the SpeedSkating race scoring engine (src/app.js).

The engine state (`state` in app.js) is embedded as `RaceState`; every
mutating operation of the core is translated into a pure function on
`RaceState`.  JavaScript numbers holding point totals and lap counts are
modelled as `Int` (they can go negative in the source); athlete numbers and
pool values are `Nat`.  The athlete `Map` is modelled as a list in insertion
order, since the source relies on insertion-order iteration.
-/

namespace SpeedSkating

/-- Athlete status: `'normal'`, `'lapped'`, `'disqualified'` in app.js. -/
inductive Status where
  | normal
  | lapped
  | disqualified
deriving DecidableEq, Repr

/-- `pointsFrequency` configuration: `'every_lap'` or `'every_2_laps'`. -/
inductive Frequency where
  | everyLap
  | everyTwoLaps
deriving DecidableEq, Repr

/-- The `Athlete` class of app.js (name/surname are display-only and omitted). -/
structure Athlete where
  number : Nat
  points : Int
  status : Status
  savedPoints : Int
deriving DecidableEq, Repr

/-- `new Athlete(number)`: points 0, status normal, savedPoints 0. -/
def Athlete.create (n : Nat) : Athlete :=
  { number := n, points := 0, status := .normal, savedPoints := 0 }

/-- `state.currentCheckpoint`. -/
structure CheckpointState where
  number : Nat
  assignedAthletes : List (Nat × Nat)
  availablePoints : List Nat
deriving DecidableEq, Repr

/-- An entry of `state.checkpointHistory`. -/
structure HistoryEntry where
  number : Nat
  athletes : List (Nat × Nat)
  lapsBeforeDecrement : Int
deriving DecidableEq, Repr

/-- `state.config`. -/
structure Config where
  totalLaps : Int
  pointsFrequency : Frequency
deriving DecidableEq, Repr

/-- The global `state` object of app.js restricted to the scoring core.
`endRaceVisible` models the visibility of the End-Race button, the
"eligible to end" signal surfaced by `completeCheckpoint`. -/
structure RaceState where
  config : Config
  raceStarted : Bool
  raceEnded : Bool
  lapsRemaining : Int
  athletes : List Athlete
  currentCheckpoint : CheckpointState
  checkpointHistory : List HistoryEntry
  endRaceVisible : Bool
deriving DecidableEq, Repr

/-- `state.athletes.get(n)` (first athlete with the given number). -/
def findAthlete (reg : List Athlete) (n : Nat) : Option Athlete :=
  reg.find? (fun a => a.number == n)

/-- Mutate the athlete object stored under number `n` (a no-op when absent),
as the source does through the `Map` reference. -/
def updateAthlete (reg : List Athlete) (n : Nat) (f : Athlete → Athlete) :
    List Athlete :=
  reg.map (fun a => if a.number = n then f a else a)

/-- `isNextCheckpointFinal()` of app.js. -/
def isNextCheckpointFinal (s : RaceState) : Bool :=
  match s.config.pointsFrequency with
  | .everyLap => s.lapsRemaining == 1
  | .everyTwoLaps => s.lapsRemaining == 2

/-- The pool computed by `initializeCheckpoint` (and by the undo handler). -/
def checkpointPool (s : RaceState) : List Nat :=
  if isNextCheckpointFinal s then [3, 2, 1] else [2, 1]

/-- `initializeCheckpoint()` of app.js. -/
def initializeCheckpoint (s : RaceState) : RaceState :=
  { s with currentCheckpoint :=
      { number := s.currentCheckpoint.number + 1
        assignedAthletes := []
        availablePoints := checkpointPool s } }

/-- `canAssignPoints(points)` of app.js. -/
def canAssignPoints (s : RaceState) (p : Nat) : Bool :=
  s.currentCheckpoint.availablePoints.contains p

/-- `isAthleteAlreadyAssignedInCheckpoint(athleteNumber)` of app.js. -/
def isAthleteAlreadyAssignedInCheckpoint (s : RaceState) (n : Nat) : Bool :=
  s.currentCheckpoint.assignedAthletes.any (fun a => a.1 == n)

/-- Lap decrement on checkpoint completion: 1 for every-lap, 2 otherwise. -/
def lapDecrement (f : Frequency) : Int :=
  match f with
  | .everyLap => 1
  | .everyTwoLaps => 2

/-- `completeCheckpoint()` of app.js: decrement laps, surface the
end-of-race signal when laps hit exactly 0, and initialize the next
checkpoint while laps remain. -/
def completeCheckpoint (s : RaceState) : RaceState :=
  let laps := s.lapsRemaining - lapDecrement s.config.pointsFrequency
  let s1 := { s with
    lapsRemaining := laps
    endRaceVisible := if laps == 0 then true else s.endRaceVisible }
  if 0 < laps then initializeCheckpoint s1 else s1

/-- The typed rejection reasons of the spec for `assignPoints`. -/
inductive RejectReason where
  | raceEnded
  | pointsNotAvailable
  | duplicateAssignment
  | athleteDisqualified
deriving DecidableEq, Repr

/-- Replace the athlete snapshot of the most recent history entry
(`state.checkpointHistory[length-1].athletes = [...]`). -/
def updateLastEntry (h : List HistoryEntry) (l : List (Nat × Nat)) :
    List HistoryEntry :=
  match h.getLast? with
  | none => h
  | some e => h.dropLast ++ [{ e with athletes := l }]

/-- The mutation part of `assignPointsToAthlete` after all validation has
passed: create the athlete if unseen, add the points, record the assignment,
remove the value from the pool and create or amend the history entry. -/
def applyAssign (s : RaceState) (n p : Nat) : RaceState :=
  let reg := if (findAthlete s.athletes n).isSome then s.athletes
             else s.athletes ++ [Athlete.create n]
  let isFirstAssignment := s.currentCheckpoint.assignedAthletes.isEmpty
  let reg' := updateAthlete reg n (fun a => { a with points := a.points + (p : Int) })
  let assigned := s.currentCheckpoint.assignedAthletes ++ [(n, p)]
  let pool := s.currentCheckpoint.availablePoints.erase p
  let history :=
    if isFirstAssignment then
      s.checkpointHistory ++
        [{ number := s.currentCheckpoint.number
           athletes := assigned
           lapsBeforeDecrement := s.lapsRemaining }]
    else
      updateLastEntry s.checkpointHistory assigned
  { s with
    athletes := reg'
    currentCheckpoint := { s.currentCheckpoint with
      assignedAthletes := assigned
      availablePoints := pool }
    checkpointHistory := history }

/-- `assignPointsToAthlete(athleteNumber, points)` of app.js, with the
validation order of the source; each early `return false` carries the
rejection reason of its alert. -/
def assignPointsToAthlete (s : RaceState) (n p : Nat) :
    Except RejectReason RaceState :=
  if s.raceEnded then .error .raceEnded
  else if ¬ canAssignPoints s p then .error .pointsNotAvailable
  else if isAthleteAlreadyAssignedInCheckpoint s n then .error .duplicateAssignment
  else if ((findAthlete s.athletes n).getD (Athlete.create n)).status = .disqualified then
    .error .athleteDisqualified
  else
    let s' := applyAssign s n p
    .ok (if s'.currentCheckpoint.availablePoints.isEmpty then completeCheckpoint s'
         else s')

/-- `canUndo()` of app.js: history non-empty and race not ended. -/
def canUndo (s : RaceState) : Bool :=
  !s.checkpointHistory.isEmpty && !s.raceEnded

/-- The per-athlete point removal loop of `undoLastCheckpoint` (athletes
missing from the registry are skipped). -/
def subtractAssignments (reg : List Athlete) (l : List (Nat × Nat)) :
    List Athlete :=
  l.foldl (fun r ap =>
    updateAthlete r ap.1 (fun a => { a with points := a.points - (ap.2 : Int) })) reg

/-- `undoLastCheckpoint()` of app.js (the confirmation dialog accepted);
a no-op when `canUndo()` is false. -/
def undoLastCheckpoint (s : RaceState) : RaceState :=
  if canUndo s then
    match s.checkpointHistory.getLast? with
    | none => s
    | some e =>
      let s1 := { s with
        athletes := subtractAssignments s.athletes e.athletes
        lapsRemaining := e.lapsBeforeDecrement
        checkpointHistory := s.checkpointHistory.dropLast }
      { s1 with
        currentCheckpoint :=
          { number := e.number
            assignedAthletes := []
            availablePoints := checkpointPool s1 }
        endRaceVisible := if 0 < s1.lapsRemaining then false else s1.endRaceVisible }
  else s

/-- The athlete-level effect of `lapAthlete`: unconditionally save the
current points, zero them and mark the athlete lapped. -/
def lapTransform (a : Athlete) : Athlete :=
  { a with savedPoints := a.points, points := 0, status := .lapped }

/-- The athlete-level effect of `unlapAthlete` (guarded on status). -/
def unlapTransform (a : Athlete) : Athlete :=
  if a.status = .lapped then
    { a with points := a.savedPoints, savedPoints := 0, status := .normal }
  else a

/-- The athlete-level effect of `disqualifyAthlete`: a lapped athlete keeps
its savedPoints, otherwise the current points are saved; points are zeroed. -/
def disqualifyTransform (a : Athlete) : Athlete :=
  { a with
    savedPoints := if a.status = .lapped then a.savedPoints else a.points
    points := 0
    status := .disqualified }

/-- The athlete-level effect of `reinstateAthlete` (guarded on status). -/
def reinstateTransform (a : Athlete) : Athlete :=
  if a.status = .disqualified then
    { a with points := a.savedPoints, savedPoints := 0, status := .normal }
  else a

/-- The athlete-level effect of `modifyAthletePointsFree`: clamp at 0. -/
def modifyTransform (delta : Int) (a : Athlete) : Athlete :=
  { a with points := max 0 (a.points + delta) }

/-- `lapAthlete(athleteNumber)` of app.js (no-op when the athlete is absent). -/
def lapAthlete (s : RaceState) (n : Nat) : RaceState :=
  { s with athletes := updateAthlete s.athletes n lapTransform }

/-- `unlapAthlete(athleteNumber)` of app.js. -/
def unlapAthlete (s : RaceState) (n : Nat) : RaceState :=
  { s with athletes := updateAthlete s.athletes n unlapTransform }

/-- `disqualifyAthlete(athleteNumber)` of app.js. -/
def disqualifyAthlete (s : RaceState) (n : Nat) : RaceState :=
  { s with athletes := updateAthlete s.athletes n disqualifyTransform }

/-- `reinstateAthlete(athleteNumber)` of app.js. -/
def reinstateAthlete (s : RaceState) (n : Nat) : RaceState :=
  { s with athletes := updateAthlete s.athletes n reinstateTransform }

/-- `modifyAthletePointsFree(athleteNumber, pointsChange)` of app.js. -/
def modifyAthletePointsFree (s : RaceState) (n : Nat) (delta : Int) : RaceState :=
  { s with athletes := updateAthlete s.athletes n (modifyTransform delta) }

/-- `endRace()` of app.js (dialog accepted): freeze the race. -/
def endRace (s : RaceState) : RaceState :=
  { s with raceEnded := true, endRaceVisible := false }

/-- The state after the configuration screen: laps set, race not started. -/
def configuredState (totalLaps : Int) (freq : Frequency) : RaceState :=
  { config := { totalLaps := totalLaps, pointsFrequency := freq }
    raceStarted := false
    raceEnded := false
    lapsRemaining := totalLaps
    athletes := []
    currentCheckpoint := { number := 0, assignedAthletes := [], availablePoints := [] }
    checkpointHistory := []
    endRaceVisible := false }

/-- `startRace()` of app.js. -/
def startRace (s : RaceState) : RaceState :=
  initializeCheckpoint { s with raceStarted := true }

/-- The mutating commands a caller can issue once the race has started. -/
inductive RaceOp where
  | assign (n p : Nat)
  | lap (n : Nat)
  | unlap (n : Nat)
  | disqualify (n : Nat)
  | reinstate (n : Nat)
  | modify (n : Nat) (delta : Int)
  | undo
  | stop
deriving DecidableEq, Repr

/-- One engine step; a rejected assignment leaves the state unchanged. -/
def step (s : RaceState) (op : RaceOp) : RaceState :=
  match op with
  | .assign n p =>
      match assignPointsToAthlete s n p with
      | .ok s' => s'
      | .error _ => s
  | .lap n => lapAthlete s n
  | .unlap n => unlapAthlete s n
  | .disqualify n => disqualifyAthlete s n
  | .reinstate n => reinstateAthlete s n
  | .modify n d => modifyAthletePointsFree s n d
  | .undo => undoLastCheckpoint s
  | .stop => endRace s

/-- Run a command sequence. -/
def runOps (s : RaceState) (ops : List RaceOp) : RaceState :=
  ops.foldl step s

/-- Run a list of point assignments, requiring each to succeed. -/
def runAssigns (s : RaceState) : List (Nat × Nat) → Option RaceState
  | [] => some s
  | (n, p) :: rest =>
      match assignPointsToAthlete s n p with
      | .ok s' => runAssigns s' rest
      | .error _ => none

/-- The most recent history entry containing a 3-point assignment, the
descending scan of `getFinalCheckpointPoints`. -/
def lastEntryWithMax (h : List HistoryEntry) : Option HistoryEntry :=
  h.reverse.find? (fun e => e.athletes.any (fun a => a.2 == 3))

/-- `getFinalCheckpointPoints(athleteNumber)` of app.js: `none` when no
history entry carries a 3-point assignment, otherwise the athlete's points
and arrival index in that entry, defaulting to `(0, 999)`. -/
def getFinalCheckpointPoints (h : List HistoryEntry) (n : Nat) :
    Option (Nat × Nat) :=
  match lastEntryWithMax h with
  | none => none
  | some e =>
      match e.athletes.find? (fun a => a.1 == n) with
      | some a => some (a.2, e.athletes.findIdx (fun x => x.1 == n))
      | none => some (0, 999)

/-- The sort comparator of `renderLeaderboard` in app.js. -/
def compareAthletes (h : List HistoryEntry) (a b : Athlete) : Int :=
  if a.status = .disqualified ∧ b.status ≠ .disqualified then 1
  else if a.status ≠ .disqualified ∧ b.status = .disqualified then -1
  else if a.status = .lapped ∧ b.status ≠ .lapped then 1
  else if a.status ≠ .lapped ∧ b.status = .lapped then -1
  else if b.points ≠ a.points then b.points - a.points
  else
    match getFinalCheckpointPoints h a.number, getFinalCheckpointPoints h b.number with
    | some af, some bf =>
        if (bf.1 : Int) ≠ (af.1 : Int) then (bf.1 : Int) - (af.1 : Int)
        else (af.2 : Int) - (bf.2 : Int)
    | _, _ => 0

/-- The sorted athlete sequence produced by `renderLeaderboard` (the
athlete `Map` iterates in insertion order; `Array.prototype.sort` is a
stable sort driven by the comparator). -/
def leaderboard (s : RaceState) : List Athlete :=
  s.athletes.mergeSort (fun a b => compareAthletes s.checkpointHistory a b ≤ 0)

/-! ### Spec-side definitions

These state, in the spec's own terms, the properties the claims assert;
the theorems below relate them to the code-derived definitions above. -/

/-- The pool rule of the spec: `{3,2,1}` iff the checkpoint is final,
that is laps remaining equal 1 under every-lap or 2 under every-two-laps;
`{2,1}` in every other case. -/
def specPool (freq : Frequency) (laps : Int) : List Nat :=
  if (freq = .everyLap ∧ laps = 1) ∨ (freq = .everyTwoLaps ∧ laps = 2) then [3, 2, 1]
  else [2, 1]

/-- Status bucket of the leaderboard: Normal before Lapped before
Disqualified. -/
def statusBucket : Status → Nat
  | .normal => 0
  | .lapped => 1
  | .disqualified => 2

/-- An athlete's tie-break data per the spec: its assignment in the most
recent history entry containing a 3-point assignment, an absent athlete
(or absent entry) being treated as 0 points with worst (999) arrival order. -/
def tiebreakData (h : List HistoryEntry) (n : Nat) : Nat × Nat :=
  (getFinalCheckpointPoints h n).getD (0, 999)

/-- The spec's strict leaderboard order: smaller status bucket first;
within a bucket larger total points first; on equal points, more points in
the tie-break entry first, then earlier arrival there first. -/
def specBefore (h : List HistoryEntry) (a b : Athlete) : Prop :=
  statusBucket a.status < statusBucket b.status ∨
  (statusBucket a.status = statusBucket b.status ∧ b.points < a.points) ∨
  (statusBucket a.status = statusBucket b.status ∧ a.points = b.points ∧
    ((tiebreakData h b.number).1 < (tiebreakData h a.number).1 ∨
     ((tiebreakData h a.number).1 = (tiebreakData h b.number).1 ∧
      (tiebreakData h a.number).2 < (tiebreakData h b.number).2)))

/-- A tie the spec leaves to the stable order of the input. -/
def specTie (h : List HistoryEntry) (a b : Athlete) : Prop :=
  statusBucket a.status = statusBucket b.status ∧ a.points = b.points ∧
  tiebreakData h a.number = tiebreakData h b.number

/-- Lexicographic three-way comparison on integer key lists. -/
def lexCompare : List Int → List Int → Int
  | [], [] => 0
  | [], _ :: _ => -1
  | _ :: _, [] => 1
  | x :: xs, y :: ys => if x < y then -1 else if y < x then 1 else lexCompare xs ys

/-- The sort key realising the leaderboard comparator as a lexicographic
comparison. -/
def athleteKey (h : List HistoryEntry) (a : Athlete) : List Int :=
  [(statusBucket a.status : Int), -a.points,
   -((tiebreakData h a.number).1 : Int), ((tiebreakData h a.number).2 : Int)]

/-- Total points credited to athlete `n` by an assignment list. -/
def sumFor (n : Nat) (l : List (Nat × Nat)) : Int :=
  (l.map (fun ap => if ap.1 == n then (ap.2 : Int) else 0)).sum

/-- One step of the in-progress-checkpoint registry evolution: create the
athlete when unseen, then credit the points (mirrors `applyAssign`). -/
def creditAssign (reg : List Athlete) (ap : Nat × Nat) : List Athlete :=
  let reg' := if (findAthlete reg ap.1).isSome then reg else reg ++ [Athlete.create ap.1]
  updateAthlete reg' ap.1 (fun a => { a with points := a.points + (ap.2 : Int) })

/-- Registry after a list of in-checkpoint assignments. -/
def addAssignments (reg : List Athlete) (l : List (Nat × Nat)) : List Athlete :=
  l.foldl creditAssign reg

/-- Pool after removing the points of a list of assignments. -/
def reducePool (pool : List Nat) (l : List (Nat × Nat)) : List Nat :=
  l.foldl (fun acc ap => acc.erase ap.2) pool

/-- The race state in the middle of a checkpoint that opened at `s0` and
has received exactly the assignments `l`, none of which completed it. -/
def midState (s0 : RaceState) (l : List (Nat × Nat)) : RaceState :=
  { s0 with
    athletes := addAssignments s0.athletes l
    currentCheckpoint := { s0.currentCheckpoint with
      assignedAthletes := l
      availablePoints := reducePool s0.currentCheckpoint.availablePoints l }
    checkpointHistory := s0.checkpointHistory ++
      (if l.isEmpty then [] else
        [{ number := s0.currentCheckpoint.number
           athletes := l
           lapsBeforeDecrement := s0.lapsRemaining }]) }

/-- Every athlete ledger field that the spec constrains to be nonnegative. -/
def nonnegList (reg : List Athlete) : Prop :=
  ∀ a ∈ reg, 0 ≤ a.points ∧ 0 ≤ a.savedPoints

/-- The points/savedPoints invariant the spec claims for every state. -/
def athletesNonneg (s : RaceState) : Prop :=
  nonnegList s.athletes

/-- The inductive invariant behind the laps-never-negative property:
laps are nonnegative, an exhausted race has an empty pool, laps stay even
under every-two-laps, and every history entry recorded at least one
(even, under every-two-laps) remaining lap. -/
def raceInvariant (s : RaceState) : Prop :=
  0 ≤ s.lapsRemaining ∧
  (s.lapsRemaining = 0 → s.currentCheckpoint.availablePoints = []) ∧
  (s.config.pointsFrequency = .everyTwoLaps → s.lapsRemaining % 2 = 0) ∧
  (∀ e ∈ s.checkpointHistory, 1 ≤ e.lapsBeforeDecrement ∧
    (s.config.pointsFrequency = .everyTwoLaps → e.lapsBeforeDecrement % 2 = 0))

/-! ### Concrete states used by witnesses and counterexamples -/

/-- A started 3-lap every-lap race. -/
def demo3 : RaceState := startRace (configuredState 3 .everyLap)

/-- `demo3` after a successful `assignPoints(#10, 2)` (checkpoint open,
pool `[1]`). -/
def demo3b : RaceState := (runAssigns demo3 [(10, 2)]).getD demo3

/-- `demo3` after checkpoint 1 was completed by athletes 10 and 11. -/
def demo3c : RaceState := (runAssigns demo3 [(10, 2), (11, 1)]).getD demo3

/-- A started 5-lap every-lap race with checkpoint 1 completed by
athletes 7 and 8 (checkpoint 2 open, athletes 7 and 8 registered). -/
def demoStart : RaceState :=
  (runAssigns (startRace (configuredState 5 .everyLap)) [(7, 2), (8, 1)]).getD
    (configuredState 0 .everyLap)

/-- `demoStart` after checkpoint 2 was completed by athletes 7 and 9. -/
def demoCompleted : RaceState :=
  (runAssigns demoStart [(7, 2), (9, 1)]).getD demoStart

/-- A lapped athlete holding a saved pre-lap total of 2 whose points were
then freely modified to 5: assign 2 points to athlete 1, lap them, add 5. -/
def c6State : RaceState :=
  runOps (startRace (configuredState 5 .everyLap))
    [.assign 1 2, .assign 2 1, .lap 1, .modify 1 5]

/-- Same construction for the lap-guard counterexample. -/
def c10State : RaceState :=
  runOps (startRace (configuredState 5 .everyLap))
    [.assign 1 2, .assign 2 1, .lap 1, .modify 1 5]

/-- Assign 2 points to athlete 10, lap them, then undo the checkpoint:
the undo subtracts 2 from a zeroed total. -/
def c7State : RaceState :=
  runOps demo3 [.assign 10 2, .lap 10, .undo]

/-- A 1-lap every-two-laps race whose only checkpoint was completed. -/
def c8State : RaceState :=
  runOps (startRace (configuredState 1 .everyTwoLaps)) [.assign 10 2, .assign 11 1]

/-- Two athletes on 7 total points; athlete 2 holds 3 points (first in
order) and athlete 1 holds 2 points in the newest entry containing a 3;
athletes 5 and 6 are fully tied (3 points each, no tie-break data). -/
def c4State : RaceState :=
  { configuredState 5 .everyLap with
    athletes := [⟨1, 7, .normal, 0⟩, ⟨2, 7, .normal, 0⟩,
                 ⟨5, 3, .normal, 0⟩, ⟨6, 3, .normal, 0⟩]
    checkpointHistory := [⟨1, [(1, 2), (2, 1)], 5⟩, ⟨2, [(2, 3), (1, 2), (3, 1)], 1⟩] }

/-! ### Registry lemmas -/

theorem findAthlete_updateAthlete (reg : List Athlete) (n m : Nat) (f : Athlete → Athlete)
    (hf : ∀ a, (f a).number = a.number) :
    findAthlete (updateAthlete reg n f) m =
      if m = n then (findAthlete reg n).map f else findAthlete reg m := by
  induction reg with
  | nil => simp [findAthlete, updateAthlete]
  | cons a reg ih =>
    simp only [findAthlete, updateAthlete, List.map_cons, List.find?_cons] at ih ⊢
    by_cases han : a.number = n
    · by_cases hm : m = n
      · subst hm
        simp [han, hf]
      · have hnm : (n == m) = false := by simp [beq_eq_false_iff_ne]; omega
        simp [han, hf, hm, ih, hnm]
    · by_cases ham : a.number = m
      · have hm : ¬ m = n := fun h => han (h ▸ ham)
        simp [han, ham, hm, beq_iff_eq]
      · have h1 : (a.number == m) = false := by simpa using ham
        have h2 : (a.number == n) = false := by simpa using han
        rw [if_neg han]
        simp [ih, h1, h2]

theorem findAthlete_append (reg ext : List Athlete) (m : Nat) :
    findAthlete (reg ++ ext) m = (findAthlete reg m).or (findAthlete ext m) := by
  simp [findAthlete, List.find?_append]

theorem lapTransform_number (a : Athlete) : (lapTransform a).number = a.number := rfl

theorem unlapTransform_number (a : Athlete) : (unlapTransform a).number = a.number := by
  unfold unlapTransform; split <;> rfl

theorem disqualifyTransform_number (a : Athlete) :
    (disqualifyTransform a).number = a.number := rfl

theorem reinstateTransform_number (a : Athlete) :
    (reinstateTransform a).number = a.number := by
  unfold reinstateTransform; split <;> rfl

theorem modifyTransform_number (d : Int) (a : Athlete) :
    (modifyTransform d a).number = a.number := rfl

theorem checkpointPool_eq_specPool (s : RaceState) :
    checkpointPool s = specPool s.config.pointsFrequency s.lapsRemaining := by
  cases h : s.config.pointsFrequency <;>
    simp [checkpointPool, specPool, isNextCheckpointFinal, h]

/-- Claim C3: at every checkpoint initialization — at race start, after a
completed checkpoint, and after an undo — the computed pool is `[3,2,1]`
iff the checkpoint is final (every-lap frequency with 1 lap remaining, or
every-two-laps frequency with 2 laps remaining, evaluated at
initialization time), and `[2,1]` in every other case. -/
theorem c3_pool_rule (s : RaceState) :
    ((initializeCheckpoint s).currentCheckpoint.availablePoints = [3, 2, 1] ↔
      ((s.config.pointsFrequency = .everyLap ∧ s.lapsRemaining = 1) ∨
       (s.config.pointsFrequency = .everyTwoLaps ∧ s.lapsRemaining = 2))) ∧
    (¬ ((s.config.pointsFrequency = .everyLap ∧ s.lapsRemaining = 1) ∨
        (s.config.pointsFrequency = .everyTwoLaps ∧ s.lapsRemaining = 2)) →
      (initializeCheckpoint s).currentCheckpoint.availablePoints = [2, 1]) ∧
    (startRace s).currentCheckpoint.availablePoints =
      specPool s.config.pointsFrequency s.lapsRemaining ∧
    (0 < s.lapsRemaining - lapDecrement s.config.pointsFrequency →
      (completeCheckpoint s).currentCheckpoint.availablePoints =
        specPool s.config.pointsFrequency
          (s.lapsRemaining - lapDecrement s.config.pointsFrequency)) ∧
    (∀ e, canUndo s = true → s.checkpointHistory.getLast? = some e →
      (undoLastCheckpoint s).currentCheckpoint.availablePoints =
        specPool s.config.pointsFrequency e.lapsBeforeDecrement) := by
  refine ⟨?_, ?_, ?_, ?_, ?_⟩
  · rw [show (initializeCheckpoint s).currentCheckpoint.availablePoints =
        checkpointPool s from rfl, checkpointPool_eq_specPool]
    unfold specPool
    split_ifs with h
    · simpa using h
    · simp only [h, iff_false]; decide
  · intro h
    rw [show (initializeCheckpoint s).currentCheckpoint.availablePoints =
        checkpointPool s from rfl, checkpointPool_eq_specPool]
    unfold specPool
    rw [if_neg h]
  · rw [show (startRace s).currentCheckpoint.availablePoints =
        checkpointPool { s with raceStarted := true } from rfl,
      checkpointPool_eq_specPool]
  · intro h
    unfold completeCheckpoint
    simp only [if_pos h]
    rw [show ∀ t, (initializeCheckpoint t).currentCheckpoint.availablePoints =
        checkpointPool t from fun _ => rfl, checkpointPool_eq_specPool]
  · intro e hc hl
    unfold undoLastCheckpoint
    rw [if_pos hc, hl]
    simp only
    rw [checkpointPool_eq_specPool]

/-- Witness for C3 at a started 3-lap every-lap race: the opening pool is
`[2,1]`, and the undo in `demoCompleted` reopens checkpoint 2 with the
pool determined by the restored 4 remaining laps. -/
theorem c3_pool_rule_witness :
    (initializeCheckpoint demo3).currentCheckpoint.availablePoints = [2, 1] ∧
    (undoLastCheckpoint demoCompleted).currentCheckpoint.availablePoints =
      specPool .everyLap 4 := by
  have h1 := (c3_pool_rule demo3).2.1
  have h2 := (c3_pool_rule demoCompleted).2.2.2.2
  exact ⟨h1 (by decide), h2 ⟨2, [(7, 2), (9, 1)], 4⟩ (by decide) (by decide)⟩

/-- Claim C9: for an athlete present in the registry,
`modifyAthletePointsFree` sets that athlete's points to
`max 0 (points + delta)` and leaves the open checkpoint, the history,
the race flags and every other athlete unchanged. -/
theorem c9_modify_points (s : RaceState) (n : Nat) (delta : Int) (a : Athlete)
    (h : findAthlete s.athletes n = some a) :
    findAthlete (modifyAthletePointsFree s n delta).athletes n =
      some { a with points := max 0 (a.points + delta) } ∧
    (∀ m, m ≠ n → findAthlete (modifyAthletePointsFree s n delta).athletes m =
      findAthlete s.athletes m) ∧
    (modifyAthletePointsFree s n delta).currentCheckpoint = s.currentCheckpoint ∧
    (modifyAthletePointsFree s n delta).checkpointHistory = s.checkpointHistory ∧
    (modifyAthletePointsFree s n delta).lapsRemaining = s.lapsRemaining ∧
    (modifyAthletePointsFree s n delta).raceEnded = s.raceEnded ∧
    (modifyAthletePointsFree s n delta).config = s.config := by
  refine ⟨?_, ?_, rfl, rfl, rfl, rfl, rfl⟩
  · rw [show (modifyAthletePointsFree s n delta).athletes =
        updateAthlete s.athletes n (modifyTransform delta) from rfl,
      findAthlete_updateAthlete _ _ _ _ (modifyTransform_number delta), if_pos rfl, h]
    rfl
  · intro m hm
    rw [show (modifyAthletePointsFree s n delta).athletes =
        updateAthlete s.athletes n (modifyTransform delta) from rfl,
      findAthlete_updateAthlete _ _ _ _ (modifyTransform_number delta), if_neg hm]

/-- Witness for C9: subtracting 5 from athlete 7's 2 points in `demoStart`
clamps at 0, while athlete 8 and the checkpoint are untouched. -/
theorem c9_modify_points_witness :
    findAthlete (modifyAthletePointsFree demoStart 7 (-5)).athletes 7 =
      some ⟨7, 0, .normal, 0⟩ ∧
    findAthlete (modifyAthletePointsFree demoStart 7 (-5)).athletes 8 =
      findAthlete demoStart.athletes 8 ∧
    (modifyAthletePointsFree demoStart 7 (-5)).currentCheckpoint =
      demoStart.currentCheckpoint ∧
    (modifyAthletePointsFree demoStart 7 (-5)).checkpointHistory =
      demoStart.checkpointHistory := by
  have h := c9_modify_points demoStart 7 (-5) ⟨7, 2, .normal, 0⟩ (by decide)
  exact ⟨by rw [h.1]; decide, h.2.1 8 (by decide), h.2.2.1, h.2.2.2.1⟩

/-! ### C6 and C10: status round-trips -/

/-- Claim C6 (amended): for every athlete in the registry, lap followed by
unlap restores the original points exactly; disqualify followed by
reinstate restores the pre-disqualification points when the athlete was
Normal, but for a Lapped athlete it restores the saved pre-lap total
(`savedPoints`) rather than the points held immediately before the
disqualification. -/
theorem c6_status_roundtrip (s : RaceState) (n : Nat) (a : Athlete)
    (h : findAthlete s.athletes n = some a) :
    (findAthlete (unlapAthlete (lapAthlete s n) n).athletes n).map Athlete.points =
      some a.points ∧
    (a.status = .normal →
      (findAthlete (reinstateAthlete (disqualifyAthlete s n) n).athletes n).map
        Athlete.points = some a.points) ∧
    (a.status = .lapped →
      (findAthlete (reinstateAthlete (disqualifyAthlete s n) n).athletes n).map
        Athlete.points = some a.savedPoints) := by
  have hlap : findAthlete (lapAthlete s n).athletes n = some (lapTransform a) := by
    rw [show (lapAthlete s n).athletes = updateAthlete s.athletes n lapTransform from rfl,
      findAthlete_updateAthlete _ _ _ _ lapTransform_number, if_pos rfl, h, Option.map_some']
  have hdq : findAthlete (disqualifyAthlete s n).athletes n =
      some (disqualifyTransform a) := by
    rw [show (disqualifyAthlete s n).athletes =
        updateAthlete s.athletes n disqualifyTransform from rfl,
      findAthlete_updateAthlete _ _ _ _ disqualifyTransform_number, if_pos rfl, h,
      Option.map_some']
  refine ⟨?_, ?_, ?_⟩
  · rw [show (unlapAthlete (lapAthlete s n) n).athletes =
        updateAthlete (lapAthlete s n).athletes n unlapTransform from rfl,
      findAthlete_updateAthlete _ _ _ _ unlapTransform_number, if_pos rfl, hlap,
      Option.map_some', Option.map_some']
    simp [lapTransform, unlapTransform]
  · intro hst
    rw [show (reinstateAthlete (disqualifyAthlete s n) n).athletes =
        updateAthlete (disqualifyAthlete s n).athletes n reinstateTransform from rfl,
      findAthlete_updateAthlete _ _ _ _ reinstateTransform_number, if_pos rfl, hdq,
      Option.map_some', Option.map_some']
    simp [disqualifyTransform, reinstateTransform, hst]
  · intro hst
    rw [show (reinstateAthlete (disqualifyAthlete s n) n).athletes =
        updateAthlete (disqualifyAthlete s n).athletes n reinstateTransform from rfl,
      findAthlete_updateAthlete _ _ _ _ reinstateTransform_number, if_pos rfl, hdq,
      Option.map_some', Option.map_some']
    simp [disqualifyTransform, reinstateTransform, hst]

/-- Witness for C6 at `c6State`: athlete 1 is Lapped with 5 points and a
saved pre-lap total of 2; lap-unlap restores 5, disqualify-reinstate
restores the saved 2. -/
theorem c6_status_roundtrip_witness :
    (findAthlete (unlapAthlete (lapAthlete c6State 1) 1).athletes 1).map
      Athlete.points = some 5 ∧
    (findAthlete (reinstateAthlete (disqualifyAthlete c6State 1) 1).athletes 1).map
      Athlete.points = some 2 := by
  have h := c6_status_roundtrip c6State 1 ⟨1, 5, .lapped, 2⟩ (by decide)
  exact ⟨h.1, h.2.2 rfl⟩

/-- Counterexample for C6 as frozen: in `c6State` athlete 1 holds 5 points
immediately before disqualification (status Lapped, reachable by assign 2,
lap, modify +5), yet disqualify followed by reinstate yields 2 points, not
the pre-disqualification 5. -/
theorem c6_counterexample :
    (findAthlete c6State.athletes 1).map Athlete.points = some 5 ∧
    (findAthlete c6State.athletes 1).map Athlete.status = some .lapped ∧
    (findAthlete (reinstateAthlete (disqualifyAthlete c6State 1) 1).athletes 1).map
      Athlete.points = some 2 ∧
    (2 : Int) ≠ 5 := by
  refine ⟨by decide, by decide, by decide, by decide⟩

/-- Claim C10 (amended): lap is not guarded by status — for an athlete
whose status is already Lapped or Disqualified it applies the very same
overwrite as for a Normal athlete: `savedPoints` becomes the current
points (erasing the saved pre-lap total), points become 0 and the status
becomes Lapped; a following unlap restores the points held at lap time,
which are 0 exactly in the usual case where no free point modification
intervened since the points were zeroed. -/
theorem c10_lap_unguarded (s : RaceState) (n : Nat) (a : Athlete)
    (h : findAthlete s.athletes n = some a)
    (hst : a.status = .lapped ∨ a.status = .disqualified) :
    findAthlete (lapAthlete s n).athletes n =
      some { a with savedPoints := a.points, points := 0, status := .lapped } ∧
    (findAthlete (unlapAthlete (lapAthlete s n) n).athletes n).map Athlete.points =
      some a.points ∧
    (a.points = 0 →
      (findAthlete (lapAthlete s n).athletes n).map Athlete.savedPoints = some 0 ∧
      (findAthlete (unlapAthlete (lapAthlete s n) n).athletes n).map Athlete.points =
        some 0) := by
  have hlap : findAthlete (lapAthlete s n).athletes n = some (lapTransform a) := by
    rw [show (lapAthlete s n).athletes = updateAthlete s.athletes n lapTransform from rfl,
      findAthlete_updateAthlete _ _ _ _ lapTransform_number, if_pos rfl, h, Option.map_some']
  have hunlap : (findAthlete (unlapAthlete (lapAthlete s n) n).athletes n).map
      Athlete.points = some a.points := by
    rw [show (unlapAthlete (lapAthlete s n) n).athletes =
        updateAthlete (lapAthlete s n).athletes n unlapTransform from rfl,
      findAthlete_updateAthlete _ _ _ _ unlapTransform_number, if_pos rfl, hlap,
      Option.map_some', Option.map_some']
    simp [lapTransform, unlapTransform]
  refine ⟨hlap, hunlap, ?_⟩
  intro hp
  refine ⟨?_, ?_⟩
  · rw [hlap, Option.map_some']
    simp [lapTransform, hp]
  · rw [hunlap, hp]

/-- Witness for C10 at `c10State`: athlete 1 is already Lapped (with 5
points after a free modification); lap overwrites the saved total with 5
and leaves the athlete Lapped. -/
theorem c10_lap_unguarded_witness :
    findAthlete (lapAthlete c10State 1).athletes 1 = some ⟨1, 0, .lapped, 5⟩ ∧
    (findAthlete (unlapAthlete (lapAthlete c10State 1) 1).athletes 1).map
      Athlete.points = some 5 := by
  have h := c10_lap_unguarded c10State 1 ⟨1, 5, .lapped, 2⟩ (by decide) (Or.inl rfl)
  exact ⟨by rw [h.1], h.2.1⟩

/-- Counterexample for C10 as frozen: athlete 1 of `c10State` is Lapped
with current points 5 (after a free +5 modification), so lap overwrites
`savedPoints` with 5 — not 0 — and the subsequent unlap restores 5 points,
not 0. -/
theorem c10_counterexample :
    (findAthlete c10State.athletes 1).map Athlete.status = some .lapped ∧
    (findAthlete (lapAthlete c10State 1).athletes 1).map Athlete.savedPoints =
      some 5 ∧
    (findAthlete (unlapAthlete (lapAthlete c10State 1) 1).athletes 1).map
      Athlete.points = some 5 ∧
    (5 : Int) ≠ 0 := by
  refine ⟨by decide, by decide, by decide, by decide⟩

/-! ### C1 and C2: assignment preconditions and checkpoint completion -/

theorem assign_ok_elim {s : RaceState} {n p : Nat} {s' : RaceState}
    (h : assignPointsToAthlete s n p = .ok s') :
    s.raceEnded = false ∧ canAssignPoints s p = true ∧
    isAthleteAlreadyAssignedInCheckpoint s n = false ∧
    ((findAthlete s.athletes n).getD (Athlete.create n)).status ≠ .disqualified ∧
    s' = (if (applyAssign s n p).currentCheckpoint.availablePoints.isEmpty
          then completeCheckpoint (applyAssign s n p) else applyAssign s n p) := by
  unfold assignPointsToAthlete at h
  by_cases h1 : s.raceEnded = true
  · rw [if_pos h1] at h
    cases h
  · rw [if_neg h1] at h
    by_cases h2 : canAssignPoints s p = true
    · rw [if_neg (by simpa using h2)] at h
      by_cases h3 : isAthleteAlreadyAssignedInCheckpoint s n = true
      · rw [if_pos h3] at h
        cases h
      · rw [if_neg h3] at h
        by_cases h4 : ((findAthlete s.athletes n).getD (Athlete.create n)).status =
            .disqualified
        · rw [if_pos h4] at h
          cases h
        · rw [if_neg h4] at h
          simp only [Except.ok.injEq] at h
          exact ⟨by simpa using h1, h2, by simpa using h3, h4, h.symm⟩
    · rw [if_pos (by simpa using h2)] at h
      cases h

theorem applyAssign_availablePoints (s : RaceState) (n p : Nat) :
    (applyAssign s n p).currentCheckpoint.availablePoints =
      s.currentCheckpoint.availablePoints.erase p := rfl

theorem applyAssign_raceEnded (s : RaceState) (n p : Nat) :
    (applyAssign s n p).raceEnded = s.raceEnded := rfl

theorem completeCheckpoint_fields (s : RaceState) :
    (completeCheckpoint s).lapsRemaining =
      s.lapsRemaining - lapDecrement s.config.pointsFrequency ∧
    (completeCheckpoint s).raceEnded = s.raceEnded ∧
    ((completeCheckpoint s).lapsRemaining = 0 →
      (completeCheckpoint s).endRaceVisible = true) ∧
    (0 < (completeCheckpoint s).lapsRemaining →
      (completeCheckpoint s).currentCheckpoint.number =
        s.currentCheckpoint.number + 1 ∧
      (completeCheckpoint s).currentCheckpoint.assignedAthletes = [] ∧
      (completeCheckpoint s).currentCheckpoint.availablePoints =
        specPool s.config.pointsFrequency
          (s.lapsRemaining - lapDecrement s.config.pointsFrequency)) := by
  by_cases hpos : 0 < s.lapsRemaining - lapDecrement s.config.pointsFrequency
  · simp only [completeCheckpoint, if_pos hpos]
    refine ⟨rfl, rfl, ?_, ?_⟩
    · intro h0
      have h0' : s.lapsRemaining - lapDecrement s.config.pointsFrequency = 0 := h0
      omega
    · intro _
      exact ⟨rfl, rfl, checkpointPool_eq_specPool _⟩
  · simp only [completeCheckpoint, if_neg hpos]
    refine ⟨trivial, trivial, ?_, ?_⟩
    · intro h0
      have h0' : s.lapsRemaining - lapDecrement s.config.pointsFrequency = 0 := h0
      show (if ((s.lapsRemaining - lapDecrement s.config.pointsFrequency : Int) == 0) = true
            then true else s.endRaceVisible) = true
      rw [h0']
      rfl
    · intro hc
      have hc' : 0 < s.lapsRemaining - lapDecrement s.config.pointsFrequency := hc
      exact absurd hc' hpos

/-- Claim C1 (amended): the preconditions of `assignPoints` are checked in
the order RaceEnded, PointsNotAvailable, DuplicateAssignment,
AthleteDisqualified, each rejection leaving the race state exactly as it
was; but a second identical call after a success in a still-open checkpoint
is rejected with PointsNotAvailable — not DuplicateAssignment — because the
successful call removed the points value from the pool; it leaves every
athlete total unchanged.  (A second call for the same athlete with a
different, still-available points value is the one rejected with
DuplicateAssignment, by the third conjunct applied to the new state.) -/
theorem c1_assign_preconditions (s : RaceState) (n p : Nat) :
    (s.raceEnded = true → assignPointsToAthlete s n p = .error .raceEnded) ∧
    (s.raceEnded = false → canAssignPoints s p = false →
      assignPointsToAthlete s n p = .error .pointsNotAvailable) ∧
    (s.raceEnded = false → canAssignPoints s p = true →
      isAthleteAlreadyAssignedInCheckpoint s n = true →
      assignPointsToAthlete s n p = .error .duplicateAssignment) ∧
    (∀ a, s.raceEnded = false → canAssignPoints s p = true →
      isAthleteAlreadyAssignedInCheckpoint s n = false →
      findAthlete s.athletes n = some a → a.status = .disqualified →
      assignPointsToAthlete s n p = .error .athleteDisqualified) ∧
    (∀ r, assignPointsToAthlete s n p = .error r → step s (.assign n p) = s) ∧
    (∀ s', s.currentCheckpoint.availablePoints.Nodup →
      assignPointsToAthlete s n p = .ok s' →
      s.currentCheckpoint.availablePoints.erase p ≠ [] →
      assignPointsToAthlete s' n p = .error .pointsNotAvailable ∧
      step s' (.assign n p) = s') := by
  refine ⟨?_, ?_, ?_, ?_, ?_, ?_⟩
  · intro h1
    unfold assignPointsToAthlete
    rw [if_pos h1]
  · intro h1 h2
    unfold assignPointsToAthlete
    rw [if_neg (by simp [h1]), if_pos (by simp [h2])]
  · intro h1 h2 h3
    unfold assignPointsToAthlete
    rw [if_neg (by simp [h1]), if_neg (by simp [h2]), if_pos h3]
  · intro a h1 h2 h3 h4 h5
    unfold assignPointsToAthlete
    rw [if_neg (by simp [h1]), if_neg (by simp [h2]), if_neg (by simp [h3]), if_pos]
    rw [h4]
    simpa using h5
  · intro r hr
    simp only [step, hr]
  · intro s' hnd hok hne
    obtain ⟨h1, _h2, _h3, _h4, h5⟩ := assign_ok_elim hok
    rw [applyAssign_availablePoints,
      if_neg (by simpa [List.isEmpty_iff] using hne)] at h5
    have hpool : s'.currentCheckpoint.availablePoints =
        s.currentCheckpoint.availablePoints.erase p := by
      rw [h5, applyAssign_availablePoints]
    have hend : s'.raceEnded = false := by rw [h5, applyAssign_raceEnded, h1]
    have hcan : canAssignPoints s' p = false := by
      have hm : p ∉ s.currentCheckpoint.availablePoints.erase p :=
        List.Nodup.not_mem_erase hnd
      rw [canAssignPoints, hpool]
      simpa [List.elem_iff] using hm
    have herr : assignPointsToAthlete s' n p = .error .pointsNotAvailable := by
      unfold assignPointsToAthlete
      rw [if_neg (by simp [hend]), if_pos (by simp [hcan])]
    refine ⟨herr, ?_⟩
    simp only [step, herr]

/-- Witness for C1 at concrete states: an ended race rejects with
RaceEnded; 3 is rejected with PointsNotAvailable while the pool is `[2,1]`;
after `assignPoints(#10, 2)` succeeds, `assignPoints(#10, 1)` is a
DuplicateAssignment and the identical `assignPoints(#10, 2)` is a
PointsNotAvailable leaving the state unchanged. -/
theorem c1_assign_preconditions_witness :
    assignPointsToAthlete (endRace demo3) 10 2 = .error .raceEnded ∧
    assignPointsToAthlete demo3 10 3 = .error .pointsNotAvailable ∧
    assignPointsToAthlete demo3b 10 1 = .error .duplicateAssignment ∧
    assignPointsToAthlete demo3b 10 2 = .error .pointsNotAvailable ∧
    step demo3b (.assign 10 2) = demo3b := by
  have h6 := (c1_assign_preconditions demo3 10 2).2.2.2.2.2 demo3b (by decide)
    (by rfl) (by decide)
  refine ⟨(c1_assign_preconditions (endRace demo3) 10 2).1 (by decide),
    (c1_assign_preconditions demo3 10 3).2.1 (by decide) (by decide),
    (c1_assign_preconditions demo3b 10 1).2.2.1 (by decide) (by decide) (by decide),
    h6.1, h6.2⟩

/-- Counterexample for C1 as frozen: the second identical call after a
success is rejected with PointsNotAvailable, not DuplicateAssignment. -/
theorem c1_counterexample :
    runAssigns demo3 [(10, 2)] = some demo3b ∧
    assignPointsToAthlete demo3b 10 2 = .error .pointsNotAvailable ∧
    RejectReason.pointsNotAvailable ≠ RejectReason.duplicateAssignment := by
  refine ⟨by rfl, by rfl, by decide⟩

/-- Claim C2: when an assignment succeeds, the checkpoint completes exactly
when the pool becomes empty; on completion the laps drop by the frequency
decrement, the race is not automatically ended, laps hitting exactly 0
surfaces the end-of-race signal, and positive remaining laps immediately
open the next checkpoint with an incremented number, no assigned athletes
and a freshly computed pool. -/
theorem c2_completion (s : RaceState) (n p : Nat) (s' : RaceState)
    (hok : assignPointsToAthlete s n p = .ok s') :
    (s.currentCheckpoint.availablePoints.erase p ≠ [] →
      s'.lapsRemaining = s.lapsRemaining ∧
      s'.currentCheckpoint.number = s.currentCheckpoint.number ∧
      s'.currentCheckpoint.assignedAthletes =
        s.currentCheckpoint.assignedAthletes ++ [(n, p)] ∧
      s'.currentCheckpoint.availablePoints =
        s.currentCheckpoint.availablePoints.erase p ∧
      s'.raceEnded = false) ∧
    (s.currentCheckpoint.availablePoints.erase p = [] →
      s'.lapsRemaining = s.lapsRemaining - lapDecrement s.config.pointsFrequency ∧
      s'.raceEnded = false ∧
      (s'.lapsRemaining = 0 → s'.endRaceVisible = true) ∧
      (0 < s'.lapsRemaining →
        s'.currentCheckpoint.number = s.currentCheckpoint.number + 1 ∧
        s'.currentCheckpoint.assignedAthletes = [] ∧
        s'.currentCheckpoint.availablePoints =
          specPool s.config.pointsFrequency s'.lapsRemaining)) := by
  obtain ⟨h1, _h2, _h3, _h4, h5⟩ := assign_ok_elim hok
  rw [applyAssign_availablePoints] at h5
  constructor
  · intro hne
    rw [if_neg (by simpa [List.isEmpty_iff] using hne)] at h5
    subst h5
    exact ⟨rfl, rfl, rfl, rfl, h1⟩
  · intro he
    rw [if_pos (by simp [List.isEmpty_iff, he])] at h5
    obtain ⟨hl, he2, hv, hn⟩ := completeCheckpoint_fields (applyAssign s n p)
    subst h5
    refine ⟨hl, he2.trans h1, hv, ?_⟩
    intro hpos
    obtain ⟨ha, hb, hc⟩ := hn hpos
    refine ⟨ha, hb, ?_⟩
    rw [hc, hl]
    rfl

/-- Witness for C2: in `demo3` the first assignment leaves the pool `[1]`
open, while the completing assignment in `demo3b` drops the laps from 3 to
2 and opens checkpoint 2 with pool `[2,1]`. -/
theorem c2_completion_witness :
    demo3b.lapsRemaining = demo3.lapsRemaining ∧
    demo3b.currentCheckpoint.availablePoints = [1] ∧
    demo3c.lapsRemaining = 2 ∧
    demo3c.currentCheckpoint.number = 2 ∧
    demo3c.currentCheckpoint.availablePoints = specPool .everyLap 2 := by
  have hb := (c2_completion demo3 10 2 demo3b (by rfl)).1 (by decide)
  have hc := (c2_completion demo3b 11 1 demo3c (by rfl)).2 (by decide)
  have hlaps : demo3c.lapsRemaining = 2 := by
    rw [hc.1]; decide
  refine ⟨hb.1, by rw [hb.2.2.2.1]; decide, hlaps, ?_, ?_⟩
  · exact ((hc.2.2.2 (by rw [hlaps]; decide)).1).trans (by decide)
  · have hp := (hc.2.2.2 (by rw [hlaps]; decide)).2.2
    rw [hp, hlaps]
    decide

/-! ### C7 and C8: numeric invariants -/

theorem sumFor_cons (n : Nat) (ap : Nat × Nat) (l : List (Nat × Nat)) :
    sumFor n (ap :: l) = (if ap.1 == n then (ap.2 : Int) else 0) + sumFor n l := by
  simp [sumFor]

theorem subtractAssignments_eq (l : List (Nat × Nat)) (reg : List Athlete) :
    subtractAssignments reg l =
      reg.map (fun a => { a with points := a.points - sumFor a.number l }) := by
  induction l generalizing reg with
  | nil =>
    have hid : (fun (a : Athlete) =>
        ({ a with points := a.points - sumFor a.number [] } : Athlete)) = fun a => a := by
      funext a
      show ({ a with points := a.points - 0 } : Athlete) = a
      rw [Int.sub_zero]
    rw [show subtractAssignments reg [] = reg from rfl, hid, List.map_id']
  | cons ap l ih =>
    rw [show subtractAssignments reg (ap :: l) =
        subtractAssignments (updateAthlete reg ap.1
          (fun a => { a with points := a.points - (ap.2 : Int) })) l from rfl,
      ih, updateAthlete, List.map_map]
    refine List.map_congr_left ?_
    intro a _
    obtain ⟨num, pts, st, sv⟩ := a
    by_cases h : num = ap.1
    · have hb : (ap.1 == num) = true := by simp [h]
      simp [Function.comp, h, hb, sumFor_cons, Athlete.mk.injEq]
      omega
    · have hb : (ap.1 == num) = false := by simp [beq_eq_false_iff_ne]; omega
      simp [Function.comp, h, hb, sumFor_cons, Athlete.mk.injEq]

theorem nonnegList_updateAthlete {reg : List Athlete} {n : Nat} {f : Athlete → Athlete}
    (hreg : nonnegList reg)
    (hf : ∀ a, 0 ≤ a.points → 0 ≤ a.savedPoints →
      0 ≤ (f a).points ∧ 0 ≤ (f a).savedPoints) :
    nonnegList (updateAthlete reg n f) := by
  intro b hb
  rw [updateAthlete, List.mem_map] at hb
  obtain ⟨a, ha, rfl⟩ := hb
  by_cases h : a.number = n
  · rw [if_pos h]
    exact hf a (hreg a ha).1 (hreg a ha).2
  · rw [if_neg h]
    exact hreg a ha

theorem nonnegList_append_create (reg : List Athlete) (n : Nat)
    (hreg : nonnegList reg) : nonnegList (reg ++ [Athlete.create n]) := by
  intro b hb
  rcases List.mem_append.1 hb with h | h
  · exact hreg b h
  · simp only [List.mem_singleton] at h
    subst h
    exact ⟨le_refl 0, le_refl 0⟩

theorem completeCheckpoint_athletes (s : RaceState) :
    (completeCheckpoint s).athletes = s.athletes := by
  by_cases h : 0 < s.lapsRemaining - lapDecrement s.config.pointsFrequency
  · simp only [completeCheckpoint, if_pos h]
    rfl
  · simp only [completeCheckpoint, if_neg h]

theorem completeCheckpoint_history (s : RaceState) :
    (completeCheckpoint s).checkpointHistory = s.checkpointHistory := by
  by_cases h : 0 < s.lapsRemaining - lapDecrement s.config.pointsFrequency
  · simp only [completeCheckpoint, if_pos h]
    rfl
  · simp only [completeCheckpoint, if_neg h]

theorem completeCheckpoint_config (s : RaceState) :
    (completeCheckpoint s).config = s.config := by
  by_cases h : 0 < s.lapsRemaining - lapDecrement s.config.pointsFrequency
  · simp only [completeCheckpoint, if_pos h]
    rfl
  · simp only [completeCheckpoint, if_neg h]

theorem completeCheckpoint_cp_of_not_pos (s : RaceState)
    (h : ¬ 0 < s.lapsRemaining - lapDecrement s.config.pointsFrequency) :
    (completeCheckpoint s).currentCheckpoint = s.currentCheckpoint := by
  simp only [completeCheckpoint, if_neg h]

theorem applyAssign_athletes (s : RaceState) (n p : Nat) :
    (applyAssign s n p).athletes =
      updateAthlete
        (if (findAthlete s.athletes n).isSome then s.athletes
         else s.athletes ++ [Athlete.create n]) n
        (fun a => { a with points := a.points + (p : Int) }) := rfl

theorem applyAssign_history (s : RaceState) (n p : Nat) :
    (applyAssign s n p).checkpointHistory =
      if s.currentCheckpoint.assignedAthletes.isEmpty then
        s.checkpointHistory ++
          [{ number := s.currentCheckpoint.number
             athletes := s.currentCheckpoint.assignedAthletes ++ [(n, p)]
             lapsBeforeDecrement := s.lapsRemaining }]
      else
        updateLastEntry s.checkpointHistory
          (s.currentCheckpoint.assignedAthletes ++ [(n, p)]) := rfl

theorem updateLastEntry_mem {h : List HistoryEntry} {l : List (Nat × Nat)}
    {e' : HistoryEntry} (he : e' ∈ updateLastEntry h l) :
    ∃ e ∈ h, e'.lapsBeforeDecrement = e.lapsBeforeDecrement := by
  unfold updateLastEntry at he
  cases hl : h.getLast? with
  | none =>
    rw [hl] at he
    exact ⟨e', he, rfl⟩
  | some e =>
    rw [hl] at he
    rcases List.mem_append.1 he with h1 | h1
    · exact ⟨e', List.dropLast_subset _ h1, rfl⟩
    · simp only [List.mem_singleton] at h1
      subst h1
      exact ⟨e, List.mem_of_getLast?_eq_some hl, rfl⟩

theorem athletesNonneg_step (s : RaceState) (op : RaceOp) (hop : op ≠ .undo)
    (h : athletesNonneg s) : athletesNonneg (step s op) := by
  cases op with
  | assign n p =>
    cases hres : assignPointsToAthlete s n p with
    | error r =>
      simp only [step, hres]
      exact h
    | ok s' =>
      simp only [step, hres]
      obtain ⟨_h1, _h2, _h3, _h4, h5⟩ := assign_ok_elim hres
      have hA : athletesNonneg (applyAssign s n p) := by
        show nonnegList (applyAssign s n p).athletes
        rw [applyAssign_athletes]
        refine nonnegList_updateAthlete ?_ ?_
        · by_cases hfound : (findAthlete s.athletes n).isSome
          · rw [if_pos hfound]; exact h
          · rw [if_neg hfound]; exact nonnegList_append_create _ _ h
        · intro a hp hs
          constructor
          · show 0 ≤ a.points + (p : Int)
            have : (0 : Int) ≤ (p : Int) := Int.natCast_nonneg p
            omega
          · exact hs
      rw [h5]
      by_cases hemp : (applyAssign s n p).currentCheckpoint.availablePoints.isEmpty = true
      · rw [if_pos hemp]
        show nonnegList (completeCheckpoint (applyAssign s n p)).athletes
        rw [completeCheckpoint_athletes]
        exact hA
      · rw [if_neg hemp]
        exact hA
  | lap n =>
    refine nonnegList_updateAthlete h ?_
    intro a hp _hs
    exact ⟨le_refl 0, by simpa [lapTransform] using hp⟩
  | unlap n =>
    refine nonnegList_updateAthlete h ?_
    intro a hp hs
    by_cases hl : a.status = .lapped
    · simp only [unlapTransform, if_pos hl]
      exact ⟨hs, le_refl 0⟩
    · simp only [unlapTransform, if_neg hl]
      exact ⟨hp, hs⟩
  | disqualify n =>
    refine nonnegList_updateAthlete h ?_
    intro a hp hs
    refine ⟨le_refl 0, ?_⟩
    show 0 ≤ if a.status = .lapped then a.savedPoints else a.points
    by_cases hl : a.status = .lapped
    · rw [if_pos hl]; exact hs
    · rw [if_neg hl]; exact hp
  | reinstate n =>
    refine nonnegList_updateAthlete h ?_
    intro a hp hs
    by_cases hl : a.status = .disqualified
    · simp only [reinstateTransform, if_pos hl]
      exact ⟨hs, le_refl 0⟩
    · simp only [reinstateTransform, if_neg hl]
      exact ⟨hp, hs⟩
  | modify n d =>
    refine nonnegList_updateAthlete h ?_
    intro a _hp hs
    exact ⟨le_max_left 0 _, hs⟩
  | undo => exact absurd rfl hop
  | stop => exact h

theorem athletesNonneg_undo (s : RaceState) (h : athletesNonneg s)
    (hdom : ∀ e, s.checkpointHistory.getLast? = some e →
      ∀ a ∈ s.athletes, sumFor a.number e.athletes ≤ a.points) :
    athletesNonneg (undoLastCheckpoint s) := by
  unfold undoLastCheckpoint
  by_cases hc : canUndo s = true
  · rw [if_pos hc]
    cases hl : s.checkpointHistory.getLast? with
    | none => exact h
    | some e =>
      show nonnegList (subtractAssignments s.athletes e.athletes)
      rw [subtractAssignments_eq]
      intro b hb
      rw [List.mem_map] at hb
      obtain ⟨a, ha, rfl⟩ := hb
      refine ⟨?_, (h a ha).2⟩
      show 0 ≤ a.points - sumFor a.number e.athletes
      have := hdom e hl a ha
      omega
  · rw [if_neg hc]
    exact h

/-- Claim C7 (amended): the invariants points ≥ 0 and savedPoints ≥ 0 are
preserved by every operation except undo — assignment, all status
transitions, free modification and ending the race; undoLastCheckpoint
subtracts the snapshot points without clamping, so it preserves the
invariant only when each athlete's current total still dominates the sum
the snapshot credited to it, and otherwise can drive points below 0. -/
theorem c7_points_nonneg (s : RaceState) (op : RaceOp) :
    (op ≠ .undo → athletesNonneg s → athletesNonneg (step s op)) ∧
    (athletesNonneg s →
      (∀ e, s.checkpointHistory.getLast? = some e →
        ∀ a ∈ s.athletes, sumFor a.number e.athletes ≤ a.points) →
      athletesNonneg (undoLastCheckpoint s)) :=
  ⟨fun hop h => athletesNonneg_step s op hop h,
   fun h hdom => athletesNonneg_undo s h hdom⟩

/-- Witness for C7: a fresh assignment keeps all totals nonnegative, and
the undo of the untouched completed checkpoint in `demo3c` does too. -/
theorem c7_points_nonneg_witness :
    athletesNonneg (step demo3 (.assign 10 2)) ∧
    athletesNonneg (undoLastCheckpoint demo3c) := by
  constructor
  · refine (c7_points_nonneg demo3 (.assign 10 2)).1 (by decide) ?_
    unfold athletesNonneg nonnegList
    decide
  · refine (c7_points_nonneg demo3c .undo).2 ?_ ?_
    · unfold athletesNonneg nonnegList
      decide
    · intro e he
      rw [show demo3c.checkpointHistory.getLast? =
          some ⟨1, [(10, 2), (11, 1)], 3⟩ from rfl] at he
      cases he
      decide

/-- Counterexample for C7 as frozen: assign 2 points to athlete 10, lap
them (zeroing their countable points), then undo the checkpoint — the undo
subtracts the snapshot's 2 points from the zeroed total, leaving −2. -/
theorem c7_counterexample :
    findAthlete c7State.athletes 10 = some ⟨10, -2, .lapped, 2⟩ ∧
    ¬ athletesNonneg c7State := by
  refine ⟨by decide, ?_⟩
  intro h
  exact absurd (h ⟨10, -2, .lapped, 2⟩ (by decide)).1 (by decide)

theorem raceInvariant_assign {s : RaceState} {n p : Nat} {s' : RaceState}
    (hok : assignPointsToAthlete s n p = .ok s') (h : raceInvariant s) :
    raceInvariant s' := by
  obtain ⟨_h1, h2, _h3, _h4, h5⟩ := assign_ok_elim hok
  obtain ⟨hA, hB, hC, hD⟩ := h
  have hp : p ∈ s.currentCheckpoint.availablePoints := by
    simpa [canAssignPoints, List.elem_iff] using h2
  have hlaps1 : 1 ≤ s.lapsRemaining := by
    rcases lt_or_ge s.lapsRemaining 1 with hlt | hge
    · have h0 : s.lapsRemaining = 0 := by omega
      rw [hB h0] at hp
      cases hp
    · exact hge
  have hentries : ∀ e ∈ (applyAssign s n p).checkpointHistory,
      1 ≤ e.lapsBeforeDecrement ∧
      (s.config.pointsFrequency = .everyTwoLaps → e.lapsBeforeDecrement % 2 = 0) := by
    intro e he
    rw [applyAssign_history] at he
    by_cases hfirst : s.currentCheckpoint.assignedAthletes.isEmpty = true
    · rw [if_pos hfirst] at he
      rcases List.mem_append.1 he with h1 | h1
      · exact hD e h1
      · simp only [List.mem_singleton] at h1
        subst h1
        exact ⟨hlaps1, hC⟩
    · rw [if_neg hfirst] at he
      obtain ⟨e0, he0, heq⟩ := updateLastEntry_mem he
      rw [heq]
      exact hD e0 he0
  rw [h5]
  by_cases hemp : (applyAssign s n p).currentCheckpoint.availablePoints.isEmpty = true
  · rw [if_pos hemp]
    have hd2 : s.config.pointsFrequency = .everyTwoLaps → 2 ≤ s.lapsRemaining := by
      intro hf
      have := hC hf
      omega
    have hlapsC : (completeCheckpoint (applyAssign s n p)).lapsRemaining =
        s.lapsRemaining - lapDecrement s.config.pointsFrequency :=
      (completeCheckpoint_fields (applyAssign s n p)).1
    have hge0 : 0 ≤ s.lapsRemaining - lapDecrement s.config.pointsFrequency := by
      cases hf : s.config.pointsFrequency with
      | everyLap => simp only [lapDecrement]; omega
      | everyTwoLaps =>
        have := hd2 hf
        simp only [lapDecrement]
        omega
    refine ⟨by rw [hlapsC]; exact hge0, ?_, ?_, ?_⟩
    · intro h0
      rw [hlapsC] at h0
      have hnp : ¬ 0 < (applyAssign s n p).lapsRemaining -
          lapDecrement (applyAssign s n p).config.pointsFrequency := by
        show ¬ 0 < s.lapsRemaining - lapDecrement s.config.pointsFrequency
        omega
      rw [show (completeCheckpoint (applyAssign s n p)).currentCheckpoint.availablePoints =
          (applyAssign s n p).currentCheckpoint.availablePoints from
        congrArg CheckpointState.availablePoints
          (completeCheckpoint_cp_of_not_pos _ hnp)]
      exact List.isEmpty_iff.mp hemp
    · intro hf
      rw [hlapsC]
      have hf' : s.config.pointsFrequency = .everyTwoLaps := by
        rw [show (completeCheckpoint (applyAssign s n p)).config = s.config from
          completeCheckpoint_config _] at hf
        exact hf
      have h2' : s.lapsRemaining % 2 = 0 := hC hf'
      rw [hf']
      simp only [lapDecrement]
      omega
    · intro e he
      rw [show (completeCheckpoint (applyAssign s n p)).checkpointHistory =
          (applyAssign s n p).checkpointHistory from
        completeCheckpoint_history _] at he
      rw [show (completeCheckpoint (applyAssign s n p)).config = s.config from
        completeCheckpoint_config _]
      exact hentries e he
  · rw [if_neg hemp]
    refine ⟨hA, ?_, hC, hentries⟩
    intro h0
    have h0' : s.lapsRemaining = 0 := h0
    omega

theorem raceInvariant_undo {s : RaceState} (h : raceInvariant s) :
    raceInvariant (undoLastCheckpoint s) := by
  unfold undoLastCheckpoint
  by_cases hc : canUndo s = true
  · rw [if_pos hc]
    cases hl : s.checkpointHistory.getLast? with
    | none => exact h
    | some e =>
      obtain ⟨hA, hB, hC, hD⟩ := h
      obtain ⟨he1, he2⟩ := hD e (List.mem_of_getLast?_eq_some hl)
      refine ⟨?_, ?_, ?_, ?_⟩
      · exact (by omega : (0 : Int) ≤ e.lapsBeforeDecrement)
      · intro h0
        have h0' : e.lapsBeforeDecrement = 0 := h0
        omega
      · intro hf
        exact he2 hf
      · intro e' he'
        exact hD e' (List.dropLast_subset _ he')
  · rw [if_neg hc]
    exact h

theorem raceInvariant_step {s : RaceState} (op : RaceOp) (h : raceInvariant s) :
    raceInvariant (step s op) := by
  cases op with
  | assign n p =>
    cases hres : assignPointsToAthlete s n p with
    | error r =>
      simp only [step, hres]
      exact h
    | ok s' =>
      simp only [step, hres]
      exact raceInvariant_assign hres h
  | lap n => exact h
  | unlap n => exact h
  | disqualify n => exact h
  | reinstate n => exact h
  | modify n d => exact h
  | undo => exact raceInvariant_undo h
  | stop => exact h

theorem raceInvariant_runOps {s : RaceState} (ops : List RaceOp)
    (h : raceInvariant s) : raceInvariant (runOps s ops) := by
  induction ops generalizing s with
  | nil => exact h
  | cons op ops ih => exact ih (raceInvariant_step op h)

/-- Claim C8 (amended): starting from any configuration with totalLaps ≥ 1,
lapsRemaining stays nonnegative after every operation sequence under
EveryLap frequency, and under EveryTwoLaps frequency provided totalLaps is
even; with an odd totalLaps under EveryTwoLaps the final completion drives
lapsRemaining to −1. -/
theorem c8_laps_nonneg (L : Int) (f : Frequency) (ops : List RaceOp)
    (h1 : 1 ≤ L) (h2 : f = .everyTwoLaps → L % 2 = 0) :
    0 ≤ (runOps (startRace (configuredState L f)) ops).lapsRemaining := by
  have hinit : raceInvariant (startRace (configuredState L f)) := by
    refine ⟨?_, ?_, ?_, ?_⟩
    · exact (by omega : (0 : Int) ≤ L)
    · intro h0
      have h0' : L = 0 := h0
      omega
    · exact h2
    · intro e he
      cases he
  exact (raceInvariant_runOps ops hinit).1

/-- Witness for C8: a 2-lap every-two-laps race keeps laps nonnegative
after the completing assignments of its single checkpoint. -/
theorem c8_laps_nonneg_witness :
    0 ≤ (runOps (startRace (configuredState 2 .everyTwoLaps))
      [.assign 10 2, .assign 11 1]).lapsRemaining :=
  c8_laps_nonneg 2 .everyTwoLaps [.assign 10 2, .assign 11 1] (by decide)
    (fun _ => by decide)

/-- Counterexample for C8 as frozen: totalLaps = 1 (≥ 1) with EveryTwoLaps
frequency — completing the first checkpoint decrements the single
remaining lap by 2, leaving −1. -/
theorem c8_counterexample :
    (1 : Int) ≥ 1 ∧
    c8State.lapsRemaining = -1 ∧
    ¬ 0 ≤ c8State.lapsRemaining := by
  refine ⟨by decide, by decide, by decide⟩

/-! ### C5: undo round-trip -/

theorem midState_nil {s0 : RaceState}
    (h0 : s0.currentCheckpoint.assignedAthletes = []) :
    midState s0 [] = s0 := by
  obtain ⟨cfg, st, en, laps, ath, cp, hist, vis⟩ := s0
  obtain ⟨num, asg, pool⟩ := cp
  have h0' : asg = [] := h0
  subst h0'
  simp [midState, addAssignments, reducePool]

theorem addAssignments_append_single (reg : List Athlete) (l : List (Nat × Nat))
    (x : Nat × Nat) :
    addAssignments reg (l ++ [x]) = creditAssign (addAssignments reg l) x := by
  unfold addAssignments
  rw [List.foldl_append]
  rfl

theorem reducePool_append_single (pool : List Nat) (l : List (Nat × Nat))
    (x : Nat × Nat) :
    reducePool pool (l ++ [x]) = (reducePool pool l).erase x.2 := by
  unfold reducePool
  rw [List.foldl_append]
  rfl

theorem applyAssign_midState (s0 : RaceState)
    (h0 : s0.currentCheckpoint.assignedAthletes = [])
    (l : List (Nat × Nat)) (n p : Nat) :
    applyAssign (midState s0 l) n p = midState s0 (l ++ [(n, p)]) := by
  obtain ⟨cfg, st, en, laps, ath, cp, hist, vis⟩ := s0
  obtain ⟨num, asg, pool⟩ := cp
  have h0' : asg = [] := h0
  subst h0'
  unfold applyAssign midState
  simp only [RaceState.mk.injEq, CheckpointState.mk.injEq]
  refine ⟨trivial, trivial, trivial, trivial, ?_, ⟨trivial, trivial, ?_⟩, ?_, trivial⟩
  · rw [addAssignments_append_single]
    rfl
  · rw [reducePool_append_single]
  · by_cases hl : l.isEmpty = true
    · have hl' : l = [] := List.isEmpty_iff.mp hl
      subst hl'
      simp [updateLastEntry]
    · have hne2 : ¬ ((l ++ [(n, p)]).isEmpty = true) := by
        intro hcon
        rw [List.isEmpty_iff] at hcon
        exact List.cons_ne_nil _ _ (List.append_eq_nil.mp hcon).2
      rw [if_neg hl, if_neg hl, if_neg hne2]
      show updateLastEntry (hist ++ [⟨num, l, laps⟩]) (l ++ [(n, p)]) = _
      unfold updateLastEntry
      rw [List.getLast?_concat, List.dropLast_concat]

theorem runAssigns_completes (s0 : RaceState)
    (hassigned : s0.currentCheckpoint.assignedAthletes = []) :
    ∀ l l0 s1, l ≠ [] →
      (l0 ++ l).length = s0.currentCheckpoint.availablePoints.length →
      (reducePool s0.currentCheckpoint.availablePoints l0).length + l0.length =
        s0.currentCheckpoint.availablePoints.length →
      runAssigns (midState s0 l0) l = some s1 →
      s1 = completeCheckpoint (midState s0 (l0 ++ l)) := by
  intro l
  induction l with
  | nil => exact fun l0 s1 hne _ _ _ => absurd rfl hne
  | cons x rest ih =>
    intro l0 s1 _hne hlen hpool hrun
    obtain ⟨n, p⟩ := x
    rw [show runAssigns (midState s0 l0) ((n, p) :: rest) =
        (match assignPointsToAthlete (midState s0 l0) n p with
         | .ok s' => runAssigns s' rest
         | .error _ => none) from rfl] at hrun
    cases hres : assignPointsToAthlete (midState s0 l0) n p with
    | error r =>
      rw [hres] at hrun
      exact Option.noConfusion hrun
    | ok s' =>
      rw [hres] at hrun
      obtain ⟨_g1, g2, _g3, _g4, g5⟩ := assign_ok_elim hres
      have hp : p ∈ (midState s0 l0).currentCheckpoint.availablePoints := by
        simpa [canAssignPoints, List.elem_iff] using g2
      have hmpool : (midState s0 l0).currentCheckpoint.availablePoints =
          reducePool s0.currentCheckpoint.availablePoints l0 := rfl
      have herase : ((midState s0 l0).currentCheckpoint.availablePoints.erase p).length =
          (reducePool s0.currentCheckpoint.availablePoints l0).length - 1 := by
        rw [hmpool] at hp ⊢
        exact List.length_erase_of_mem hp
      rw [applyAssign_availablePoints] at g5
      cases rest with
      | nil =>
        have hone : (reducePool s0.currentCheckpoint.availablePoints l0).length = 1 := by
          simp only [List.length_append, List.length_cons, List.length_nil] at hlen
          omega
        have hempty : (midState s0 l0).currentCheckpoint.availablePoints.erase p = [] := by
          rw [← List.length_eq_zero]
          rw [herase, hone]
        rw [if_pos (by simp [List.isEmpty_iff, applyAssign_availablePoints, hempty])] at g5
        have hs1 : s' = s1 := by simpa [runAssigns] using hrun
        rw [← hs1, g5, applyAssign_midState s0 hassigned]
      | cons y rest' =>
        have htwo : 2 ≤ (reducePool s0.currentCheckpoint.availablePoints l0).length := by
          simp only [List.length_append, List.length_cons] at hlen
          omega
        have hnonempty : (midState s0 l0).currentCheckpoint.availablePoints.erase p ≠ [] := by
          intro hcon
          have := congrArg List.length hcon
          rw [herase] at this
          simp at this
          omega
        rw [if_neg (by simpa [List.isEmpty_iff, applyAssign_availablePoints]
          using hnonempty)] at g5
        rw [g5, applyAssign_midState s0 hassigned] at hrun
        have := ih (l0 ++ [(n, p)]) s1 (by simp)
          (by simpa [List.length_append] using hlen)
          (by
            rw [reducePool_append_single]
            rw [hmpool] at hp
            have := List.length_erase_of_mem hp
            simp only [List.length_append, List.length_cons, List.length_nil]
            omega)
          hrun
        rw [this, List.append_assoc]
        rfl

theorem findAthlete_number {reg : List Athlete} {n : Nat} {a : Athlete}
    (h : findAthlete reg n = some a) : a.number = n := by
  have := List.find?_some h
  simpa using this

theorem findAthlete_map (g : Athlete → Athlete) (hg : ∀ a, (g a).number = a.number)
    (reg : List Athlete) (n : Nat) :
    findAthlete (reg.map g) n = (findAthlete reg n).map g := by
  induction reg with
  | nil => rfl
  | cons a reg ih =>
    simp only [findAthlete, List.map_cons, List.find?_cons] at ih ⊢
    by_cases h : a.number = n
    · have hb : ((g a).number == n) = true := by simp [hg, h]
      have hb2 : (a.number == n) = true := by simp [h]
      simp [hb, hb2]
    · have hb : ((g a).number == n) = false := by rw [hg]; simpa using h
      have hb2 : (a.number == n) = false := by simpa using h
      simp [hb, hb2, ih]

theorem findAthlete_addAssignments (l : List (Nat × Nat)) (reg : List Athlete)
    (n : Nat) (a : Athlete) (h : findAthlete reg n = some a) :
    findAthlete (addAssignments reg l) n =
      some { a with points := a.points + sumFor n l } := by
  induction l generalizing reg a with
  | nil =>
    rw [show addAssignments reg [] = reg from rfl, h]
    have hz : a.points + sumFor n [] = a.points := by
      show a.points + 0 = a.points
      omega
    rw [hz]
  | cons x rest ih =>
    have hstep : findAthlete (creditAssign reg x) n =
        some (if x.1 = n then { a with points := a.points + (x.2 : Int) } else a) := by
      unfold creditAssign
      by_cases hfound : (findAthlete reg x.1).isSome = true
      · rw [if_pos hfound, findAthlete_updateAthlete reg x.1 n
          (fun b => { b with points := b.points + (x.2 : Int) }) (fun b => rfl)]
        by_cases hx : x.1 = n
        · rw [if_pos hx.symm, hx, h, if_pos rfl]
          rfl
        · rw [if_neg (fun hc => hx hc.symm), h, if_neg hx]
      · rw [if_neg hfound, findAthlete_updateAthlete (reg ++ [Athlete.create x.1]) x.1 n
          (fun b => { b with points := b.points + (x.2 : Int) }) (fun b => rfl)]
        by_cases hx : x.1 = n
        · exact absurd (by rw [hx, h]; rfl) hfound
        · rw [if_neg (fun hc => hx hc.symm), findAthlete_append, h, if_neg hx]
          rfl
    rw [show addAssignments reg (x :: rest) =
        addAssignments (creditAssign reg x) rest from rfl, ih _ _ hstep]
    by_cases hx : x.1 = n
    · rw [if_pos hx]
      have harith : a.points + (x.2 : Int) + sumFor n rest =
          a.points + sumFor n (x :: rest) := by
        rw [sumFor_cons]
        have hb : (x.1 == n) = true := by simp [hx]
        rw [hb, if_pos rfl]
        omega
      exact congrArg (fun v => some { a with points := v }) harith
    · rw [if_neg hx]
      have harith : a.points + sumFor n rest = a.points + sumFor n (x :: rest) := by
        rw [sumFor_cons]
        have hb : (x.1 == n) = false := by simpa using hx
        rw [hb, if_neg (by simp)]
        omega
      exact congrArg (fun v => some { a with points := v }) harith

theorem findAthlete_roundtrip (l : List (Nat × Nat)) (reg : List Athlete)
    (n : Nat) (a : Athlete) (h : findAthlete reg n = some a) :
    findAthlete (subtractAssignments (addAssignments reg l) l) n = some a := by
  have h1 := findAthlete_addAssignments l reg n a h
  rw [subtractAssignments_eq, findAthlete_map
    (fun b => { b with points := b.points - sumFor b.number l }) (fun b => rfl) _ n, h1,
    Option.map_some']
  have hnum : a.number = n := findAthlete_number h
  have harith : a.points + sumFor n l - sumFor n l = a.points := by omega
  show some { a with points := a.points + sumFor n l - sumFor a.number l } = some a
  rw [show sumFor a.number l = sumFor n l from by rw [hnum], harith]

theorem undoLastCheckpoint_eq {s : RaceState} {e : HistoryEntry}
    (hc : canUndo s = true) (hl : s.checkpointHistory.getLast? = some e) :
    undoLastCheckpoint s =
      { s with
        athletes := subtractAssignments s.athletes e.athletes
        lapsRemaining := e.lapsBeforeDecrement
        checkpointHistory := s.checkpointHistory.dropLast
        currentCheckpoint :=
          { number := e.number
            assignedAthletes := []
            availablePoints := checkpointPool { s with
              athletes := subtractAssignments s.athletes e.athletes
              lapsRemaining := e.lapsBeforeDecrement
              checkpointHistory := s.checkpointHistory.dropLast } }
        endRaceVisible := if 0 < e.lapsBeforeDecrement then false
          else s.endRaceVisible } := by
  unfold undoLastCheckpoint
  rw [if_pos hc, hl]

theorem checkpointPool_congr {s t : RaceState}
    (h1 : s.config.pointsFrequency = t.config.pointsFrequency)
    (h2 : s.lapsRemaining = t.lapsRemaining) :
    checkpointPool s = checkpointPool t := by
  rw [checkpointPool_eq_specPool, checkpointPool_eq_specPool, h1, h2]

/-- Claim C5: when an open checkpoint (freshly initialized pool, no
assignments yet) is completed by a run of successful assignments and
nothing else intervenes, `undoLastCheckpoint` restores `lapsRemaining`,
the open checkpoint (its number, an empty assignment list and the
recomputed pool), the history, and every pre-existing athlete's record —
in particular every point total — exactly as they were before the first
assignment. -/
theorem c5_undo_restores (s0 : RaceState) (l : List (Nat × Nat)) (s1 : RaceState)
    (hend : s0.raceEnded = false)
    (hassigned : s0.currentCheckpoint.assignedAthletes = [])
    (hpool : s0.currentCheckpoint.availablePoints = checkpointPool s0)
    (hne : l ≠ [])
    (hlen : l.length = s0.currentCheckpoint.availablePoints.length)
    (hrun : runAssigns s0 l = some s1) :
    (undoLastCheckpoint s1).lapsRemaining = s0.lapsRemaining ∧
    (undoLastCheckpoint s1).currentCheckpoint = s0.currentCheckpoint ∧
    (undoLastCheckpoint s1).checkpointHistory = s0.checkpointHistory ∧
    ∀ n a, findAthlete s0.athletes n = some a →
      findAthlete (undoLastCheckpoint s1).athletes n = some a := by
  have hs1 : s1 = completeCheckpoint (midState s0 l) := by
    refine runAssigns_completes s0 hassigned l [] s1 hne ?_ ?_ ?_
    · simpa using hlen
    · simp [reducePool]
    · rw [midState_nil hassigned]
      exact hrun
  subst hs1
  have hhist : (completeCheckpoint (midState s0 l)).checkpointHistory =
      s0.checkpointHistory ++
        [⟨s0.currentCheckpoint.number, l, s0.lapsRemaining⟩] := by
    rw [completeCheckpoint_history]
    show s0.checkpointHistory ++
        (if l.isEmpty then [] else
          [⟨s0.currentCheckpoint.number, l, s0.lapsRemaining⟩]) = _
    rw [if_neg (by simpa [List.isEmpty_iff] using hne)]
  have hendC : (completeCheckpoint (midState s0 l)).raceEnded = false := by
    rw [(completeCheckpoint_fields _).2.1]
    exact hend
  have hcan : canUndo (completeCheckpoint (midState s0 l)) = true := by
    unfold canUndo
    rw [hhist, hendC]
    simp
  have hgl : (completeCheckpoint (midState s0 l)).checkpointHistory.getLast? =
      some ⟨s0.currentCheckpoint.number, l, s0.lapsRemaining⟩ := by
    rw [hhist]
    exact List.getLast?_concat _
  rw [undoLastCheckpoint_eq hcan hgl]
  have hath : (completeCheckpoint (midState s0 l)).athletes =
      addAssignments s0.athletes l := completeCheckpoint_athletes _
  have hcp0 : s0.currentCheckpoint =
      ⟨s0.currentCheckpoint.number, [], checkpointPool s0⟩ := by
    rw [← hassigned, ← hpool]
  refine ⟨rfl, ?_, ?_, ?_⟩
  · show (⟨s0.currentCheckpoint.number, [], _⟩ : CheckpointState) = s0.currentCheckpoint
    conv_rhs => rw [hcp0]
    refine congrArg (fun pl => (⟨s0.currentCheckpoint.number, [], pl⟩ : CheckpointState)) ?_
    exact checkpointPool_congr
      (congrArg (fun c => c.pointsFrequency) (completeCheckpoint_config (midState s0 l)))
      rfl
  · show (completeCheckpoint (midState s0 l)).checkpointHistory.dropLast = _
    rw [hhist, List.dropLast_concat]
  · intro n a hfind
    show findAthlete
      (subtractAssignments (completeCheckpoint (midState s0 l)).athletes l) n = some a
    rw [hath]
    exact findAthlete_roundtrip l s0.athletes n a hfind

/-- Witness for C5: completing checkpoint 2 of `demoStart` with athletes 7
and 9 and undoing it restores the laps, the open checkpoint, the history
and athlete 7's record. -/
theorem c5_undo_restores_witness :
    (undoLastCheckpoint demoCompleted).lapsRemaining = demoStart.lapsRemaining ∧
    (undoLastCheckpoint demoCompleted).currentCheckpoint =
      demoStart.currentCheckpoint ∧
    (undoLastCheckpoint demoCompleted).checkpointHistory =
      demoStart.checkpointHistory ∧
    findAthlete (undoLastCheckpoint demoCompleted).athletes 7 =
      some ⟨7, 2, .normal, 0⟩ := by
  have h := c5_undo_restores demoStart [(7, 2), (9, 1)] demoCompleted (by decide)
    (by decide) (by decide) (by decide) (by decide) (by rfl)
  exact ⟨h.1, h.2.1, h.2.2.1, h.2.2.2 7 ⟨7, 2, .normal, 0⟩ (by decide)⟩

/-! ### C4: leaderboard order -/

theorem getFinalCheckpointPoints_isSome (h : List HistoryEntry) (n : Nat) :
    (getFinalCheckpointPoints h n).isSome = (lastEntryWithMax h).isSome := by
  unfold getFinalCheckpointPoints
  cases hl : lastEntryWithMax h with
  | none => simp
  | some e =>
    simp only [hl]
    cases hf : e.athletes.find? (fun a => a.1 == n) <;> simp [hf]

theorem lexCompare_cases (xs ys : List Int) :
    lexCompare xs ys = -1 ∨ lexCompare xs ys = 0 ∨ lexCompare xs ys = 1 := by
  induction xs generalizing ys with
  | nil => cases ys <;> simp [lexCompare]
  | cons x xs ih =>
    cases ys with
    | nil => simp [lexCompare]
    | cons y ys =>
      by_cases h1 : x < y
      · simp [lexCompare, h1]
      · by_cases h2 : y < x
        · simp [lexCompare, h1, h2]
        · simpa [lexCompare, h1, h2] using ih ys

theorem lexCompare_swap (xs ys : List Int) :
    lexCompare ys xs = -lexCompare xs ys := by
  induction xs generalizing ys with
  | nil => cases ys <;> simp [lexCompare]
  | cons x xs ih =>
    cases ys with
    | nil => simp [lexCompare]
    | cons y ys =>
      by_cases h1 : x < y
      · simp [lexCompare, h1, lt_asymm h1]
      · by_cases h2 : y < x
        · simp [lexCompare, h1, h2]
        · simp [lexCompare, h1, h2, ih ys]

theorem lexCompare_trans_nonpos {xs ys zs : List Int}
    (h1 : lexCompare xs ys ≤ 0) (h2 : lexCompare ys zs ≤ 0) :
    lexCompare xs zs ≤ 0 := by
  induction xs generalizing ys zs with
  | nil => cases zs <;> simp [lexCompare]
  | cons x xs ih =>
    cases ys with
    | nil => simp [lexCompare] at h1
    | cons y ys =>
      cases zs with
      | nil => simp [lexCompare] at h2
      | cons z zs =>
        by_cases hxy : x < y
        · by_cases hyz : y < z
          · have hxz : x < z := lt_trans hxy hyz
            simp [lexCompare, hxz]
          · by_cases hzy : z < y
            · exact absurd h2 (by simp [lexCompare, hyz, hzy])
            · have hxz : x < z := by omega
              simp [lexCompare, hxz]
        · by_cases hyx : y < x
          · exact absurd h1 (by simp [lexCompare, hxy, hyx])
          · by_cases hyz : y < z
            · have hxz : x < z := by omega
              simp [lexCompare, hxz]
            · by_cases hzy : z < y
              · exact absurd h2 (by simp [lexCompare, hyz, hzy])
              · have hxz : ¬ x < z := by omega
                have hzx : ¬ z < x := by omega
                have h1' : lexCompare xs ys ≤ 0 := by
                  simpa [lexCompare, hxy, hyx] using h1
                have h2' : lexCompare ys zs ≤ 0 := by
                  simpa [lexCompare, hyz, hzy] using h2
                simpa [lexCompare, hxz, hzx] using ih h1' h2'

theorem base_lex (x y : Int) :
    (x - y < 0 ↔ lexCompare [x] [y] = -1) ∧
    (x - y = 0 ↔ lexCompare [x] [y] = 0) := by
  by_cases h1 : x < y
  · have hv : lexCompare [x] [y] = -1 := by simp [lexCompare, h1]
    rw [hv]
    exact ⟨by omega, by omega⟩
  · by_cases h2 : y < x
    · have hv : lexCompare [x] [y] = 1 := by simp [lexCompare, h1, h2]
      rw [hv]
      exact ⟨by omega, by omega⟩
    · have hv : lexCompare [x] [y] = 0 := by simp [lexCompare, h1, h2]
      rw [hv]
      exact ⟨by omega, by omega⟩

theorem step_lex (P Q T : Int) (ka kb : List Int)
    (h1 : T < 0 ↔ lexCompare ka kb = -1) (h2 : T = 0 ↔ lexCompare ka kb = 0) :
    ((if Q ≠ P then Q - P else T) < 0 ↔
      lexCompare (-P :: ka) (-Q :: kb) = -1) ∧
    ((if Q ≠ P then Q - P else T) = 0 ↔
      lexCompare (-P :: ka) (-Q :: kb) = 0) := by
  by_cases hqp : Q = P
  · subst hqp
    have e1 : ¬ ((-Q : Int) < -Q) := by omega
    rw [if_neg (fun hc => hc rfl)]
    simp only [lexCompare, if_neg e1]
    exact ⟨h1, h2⟩
  · rcases (by omega : Q < P ∨ P < Q) with hlt | hlt
    · have hv : lexCompare (-P :: ka) (-Q :: kb) = -1 := by
        have hk : (-P : Int) < -Q := by omega
        simp [lexCompare, hk]
      rw [hv, if_pos hqp]
      exact ⟨by omega, by omega⟩
    · have hv : lexCompare (-P :: ka) (-Q :: kb) = 1 := by
        have hk1 : ¬ ((-P : Int) < -Q) := by omega
        have hk2 : (-Q : Int) < -P := by omega
        simp [lexCompare, hk1, hk2]
      rw [hv, if_pos hqp]
      exact ⟨by omega, by omega⟩

theorem statusCompare_lex (sa sb : Status) (T : Int) (ka kb : List Int)
    (h1 : T < 0 ↔ lexCompare ka kb = -1) (h2 : T = 0 ↔ lexCompare ka kb = 0) :
    ((if sa = .disqualified ∧ sb ≠ .disqualified then (1 : Int)
      else if sa ≠ .disqualified ∧ sb = .disqualified then -1
      else if sa = .lapped ∧ sb ≠ .lapped then 1
      else if sa ≠ .lapped ∧ sb = .lapped then -1
      else T) < 0 ↔
      lexCompare ((statusBucket sa : Int) :: ka)
        ((statusBucket sb : Int) :: kb) = -1) ∧
    ((if sa = .disqualified ∧ sb ≠ .disqualified then (1 : Int)
      else if sa ≠ .disqualified ∧ sb = .disqualified then -1
      else if sa = .lapped ∧ sb ≠ .lapped then 1
      else if sa ≠ .lapped ∧ sb = .lapped then -1
      else T) = 0 ↔
      lexCompare ((statusBucket sa : Int) :: ka)
        ((statusBucket sb : Int) :: kb) = 0) := by
  cases sa <;> cases sb <;>
    simp [statusBucket, lexCompare, h1, h2]

theorem compareAthletes_lex (h : List HistoryEntry) (a b : Athlete) :
    (compareAthletes h a b < 0 ↔
      lexCompare (athleteKey h a) (athleteKey h b) = -1) ∧
    (compareAthletes h a b = 0 ↔
      lexCompare (athleteKey h a) (athleteKey h b) = 0) := by
  have hsa := getFinalCheckpointPoints_isSome h a.number
  have hsb := getFinalCheckpointPoints_isSome h b.number
  rcases hga : getFinalCheckpointPoints h a.number with _ | ⟨pa, oa⟩ <;>
    rcases hgb : getFinalCheckpointPoints h b.number with _ | ⟨pb, ob⟩ <;>
    rw [hga] at hsa <;> rw [hgb] at hsb
  · have hbase1 : (0 : Int) < 0 ↔
        lexCompare [-((0 : Nat) : Int), ((999 : Nat) : Int)]
          [-((0 : Nat) : Int), ((999 : Nat) : Int)] = -1 := by decide
    have hbase2 : (0 : Int) = 0 ↔
        lexCompare [-((0 : Nat) : Int), ((999 : Nat) : Int)]
          [-((0 : Nat) : Int), ((999 : Nat) : Int)] = 0 := by decide
    have hpts := step_lex a.points b.points 0 _ _ hbase1 hbase2
    have hst := statusCompare_lex a.status b.status _ _ _ hpts.1 hpts.2
    simp only [compareAthletes, athleteKey, tiebreakData, hga, hgb, Option.getD]
    exact hst
  · exfalso
    simp only [Option.isSome_none, Option.isSome_some] at hsa hsb
    exact absurd (hsa.trans hsb.symm) (by decide)
  · exfalso
    simp only [Option.isSome_none, Option.isSome_some] at hsa hsb
    exact absurd (hsb.trans hsa.symm) (by decide)
  · have hbase := base_lex (oa : Int) (ob : Int)
    have htb := step_lex ((pa : Nat) : Int) ((pb : Nat) : Int)
      ((oa : Int) - (ob : Int)) _ _ hbase.1 hbase.2
    have hpts := step_lex a.points b.points _ _ _ htb.1 htb.2
    have hst := statusCompare_lex a.status b.status _ _ _ hpts.1 hpts.2
    simp only [compareAthletes, athleteKey, tiebreakData, hga, hgb, Option.getD]
    exact hst

theorem lexCompare_cons_neg_iff (x y : Int) (xs ys : List Int) :
    lexCompare (x :: xs) (y :: ys) = -1 ↔
      (x < y ∨ (x = y ∧ lexCompare xs ys = -1)) := by
  by_cases h1 : x < y
  · have hv : lexCompare (x :: xs) (y :: ys) = -1 := by simp [lexCompare, h1]
    rw [hv]
    simp [h1]
  · by_cases h2 : y < x
    · have hv : lexCompare (x :: xs) (y :: ys) = 1 := by simp [lexCompare, h1, h2]
      rw [hv]
      simp [h1, show x ≠ y from by omega]
    · have hx : x = y := by omega
      subst hx
      have hv : lexCompare (x :: xs) (x :: ys) = lexCompare xs ys := by
        simp [lexCompare, h1]
      rw [hv]
      simp [h1]

theorem lexCompare_cons_zero_iff (x y : Int) (xs ys : List Int) :
    lexCompare (x :: xs) (y :: ys) = 0 ↔ (x = y ∧ lexCompare xs ys = 0) := by
  by_cases h1 : x < y
  · have hv : lexCompare (x :: xs) (y :: ys) = -1 := by simp [lexCompare, h1]
    rw [hv]
    simp [show x ≠ y from by omega]
  · by_cases h2 : y < x
    · have hv : lexCompare (x :: xs) (y :: ys) = 1 := by simp [lexCompare, h1, h2]
      rw [hv]
      simp [show x ≠ y from by omega]
    · have hx : x = y := by omega
      subst hx
      have hv : lexCompare (x :: xs) (x :: ys) = lexCompare xs ys := by
        simp [lexCompare, h1]
      rw [hv]
      simp

theorem lexKey_neg_iff (h : List HistoryEntry) (a b : Athlete) :
    lexCompare (athleteKey h a) (athleteKey h b) = -1 ↔ specBefore h a b := by
  unfold athleteKey specBefore
  rw [lexCompare_cons_neg_iff, lexCompare_cons_neg_iff, lexCompare_cons_neg_iff,
    lexCompare_cons_neg_iff,
    show lexCompare ([] : List Int) [] = -1 ↔ False from by simp [lexCompare]]
  simp only [and_false, or_false]
  omega

theorem lexKey_zero_iff (h : List HistoryEntry) (a b : Athlete) :
    lexCompare (athleteKey h a) (athleteKey h b) = 0 ↔ specTie h a b := by
  unfold athleteKey specTie
  rw [lexCompare_cons_zero_iff, lexCompare_cons_zero_iff, lexCompare_cons_zero_iff,
    lexCompare_cons_zero_iff,
    show lexCompare ([] : List Int) [] = 0 ↔ True from by simp [lexCompare],
    Prod.ext_iff]
  simp only [and_true]
  omega

theorem compareAthletes_nonpos_iff (h : List HistoryEntry) (a b : Athlete) :
    compareAthletes h a b ≤ 0 ↔ (specBefore h a b ∨ specTie h a b) := by
  have hc := compareAthletes_lex h a b
  have hcc := lexCompare_cases (athleteKey h a) (athleteKey h b)
  constructor
  · intro hle0
    rcases lt_or_eq_of_le hle0 with hlt | heq
    · exact Or.inl ((lexKey_neg_iff h a b).mp (hc.1.mp hlt))
    · exact Or.inr ((lexKey_zero_iff h a b).mp (hc.2.mp heq))
  · rintro (hb | ht)
    · have := hc.1.mpr ((lexKey_neg_iff h a b).mpr hb)
      omega
    · have := hc.2.mpr ((lexKey_zero_iff h a b).mpr ht)
      omega

theorem compareAthletes_le_trans (h : List HistoryEntry) (a b c : Athlete)
    (hab : compareAthletes h a b ≤ 0) (hbc : compareAthletes h b c ≤ 0) :
    compareAthletes h a c ≤ 0 := by
  have hiff : ∀ x y : Athlete, compareAthletes h x y ≤ 0 ↔
      lexCompare (athleteKey h x) (athleteKey h y) ≤ 0 := by
    intro x y
    have hc := compareAthletes_lex h x y
    have hcc := lexCompare_cases (athleteKey h x) (athleteKey h y)
    constructor
    · intro hle0
      rcases lt_or_eq_of_le hle0 with hlt | heq
      · have := hc.1.mp hlt
        omega
      · have := hc.2.mp heq
        omega
    · intro hl
      rcases hcc with h1 | h0 | h1'
      · have := hc.1.mpr h1
        omega
      · have := hc.2.mpr h0
        omega
      · omega
  exact (hiff a c).mpr
    (lexCompare_trans_nonpos ((hiff a b).mp hab) ((hiff b c).mp hbc))

theorem compareAthletes_le_total (h : List HistoryEntry) (a b : Athlete) :
    compareAthletes h a b ≤ 0 ∨ compareAthletes h b a ≤ 0 := by
  by_cases hab : compareAthletes h a b ≤ 0
  · exact Or.inl hab
  · have hc := compareAthletes_lex h a b
    have hc' := compareAthletes_lex h b a
    have hcc := lexCompare_cases (athleteKey h a) (athleteKey h b)
    have hswap := lexCompare_swap (athleteKey h a) (athleteKey h b)
    rcases hcc with h1 | h0 | h1'
    · have := hc.1.mpr h1
      omega
    · have := hc.2.mpr h0
      omega
    · right
      have hba : lexCompare (athleteKey h b) (athleteKey h a) = -1 := by omega
      have := hc'.1.mpr hba
      omega

/-- Claim C4: the leaderboard is a permutation of the registry sorted by —
in order — status bucket (Normal before Lapped before Disqualified), total
points descending, then the tie-break on the most recent history entry
containing a 3-point assignment (more points in that entry first, earlier
arrival there first, athletes absent from it — or with no such entry —
counting as 0 points with worst arrival order); athletes tied on all of
these keep their registry (insertion) order, and the function is pure, so
repeated calls on the same input give the same order. -/
theorem c4_leaderboard (s : RaceState) :
    (leaderboard s).Perm s.athletes ∧
    (leaderboard s).Pairwise (fun a b =>
      specBefore s.checkpointHistory a b ∨ specTie s.checkpointHistory a b) ∧
    (∀ a b, specTie s.checkpointHistory a b → List.Sublist [a, b] s.athletes →
      List.Sublist [a, b] (leaderboard s)) := by
  have htrans : ∀ a b c : Athlete,
      decide (compareAthletes s.checkpointHistory a b ≤ 0) = true →
      decide (compareAthletes s.checkpointHistory b c ≤ 0) = true →
      decide (compareAthletes s.checkpointHistory a c ≤ 0) = true := by
    intro a b c hab hbc
    rw [decide_eq_true_iff] at hab hbc ⊢
    exact compareAthletes_le_trans s.checkpointHistory a b c hab hbc
  have htotal : ∀ a b : Athlete,
      (decide (compareAthletes s.checkpointHistory a b ≤ 0) ||
       decide (compareAthletes s.checkpointHistory b a ≤ 0)) = true := by
    intro a b
    rcases compareAthletes_le_total s.checkpointHistory a b with hle | hle <;>
      simp [hle]
  refine ⟨List.mergeSort_perm s.athletes _, ?_, ?_⟩
  · have hp := @List.sorted_mergeSort Athlete
      (fun a b => decide (compareAthletes s.checkpointHistory a b ≤ 0))
      htrans htotal s.athletes
    refine List.Pairwise.imp ?_ hp
    intro a b hab
    exact (compareAthletes_nonpos_iff s.checkpointHistory a b).mp
      (by simpa using hab)
  · intro a b htie hsub
    have hab : decide (compareAthletes s.checkpointHistory a b ≤ 0) = true := by
      rw [decide_eq_true_iff]
      exact (compareAthletes_nonpos_iff s.checkpointHistory a b).mpr (Or.inr htie)
    exact List.pair_sublist_mergeSort htrans htotal hab hsub

/-- Witness for C4 at `c4State`: the tied athletes 5 and 6 keep their
registry order in the leaderboard. -/
theorem c4_leaderboard_witness :
    List.Sublist [(⟨5, 3, .normal, 0⟩ : Athlete), ⟨6, 3, .normal, 0⟩]
      (leaderboard c4State) := by
  refine (c4_leaderboard c4State).2.2 ⟨5, 3, .normal, 0⟩ ⟨6, 3, .normal, 0⟩ ?_ ?_
  · unfold specTie
    refine ⟨rfl, rfl, ?_⟩
    decide
  · exact ((List.Sublist.refl _).cons _).cons _

end SpeedSkating
